import Mathlib

/-!
Verification development for the pivot engine of the Excel-export extension
(`src/excel-extension-react/src/utils/exportToExcel.ts`).

Modelling conventions (shallow embedding):
* JavaScript scalar values are modelled by `JsVal`; JS numbers are modelled as
  integers (`Int`).  Every concrete input considered below is integral, and no
  verified property depends on fractional or NaN-specific float behaviour
  beyond what `JsVal` captures (`parseFloat` failure is modelled as `none`).
* A JS row object is an association list from string keys to values, in key
  insertion order (`Row`).  `jsGet` returns `JsVal.undef` for an absent key,
  mirroring JS property access; `hasProp` mirrors `hasOwnProperty`.
* A JS `Map` is modelled by `JsMap`: an association list with insert-or-update
  (`mset`) preserving insertion order, as JS `Map.prototype.set` does.
* A CSS style object (`React.CSSProperties`) is modelled by `StyleObj`, an
  association list from property names to `Option String`; a key that is
  present with value `none` models a property explicitly set to `undefined`
  (JS object spread copies such keys, and `Object.keys` counts them).
* String primitives used by the source (`split`, `trim`, `toLowerCase`,
  `includes`, bracket stripping) are given structural-recursion definitions
  over `String.data` so that all definitions evaluate by kernel reduction.
-/

namespace PivotSpec

/-- JS scalar value: string, number (modelled as an integer), `null` or
`undefined`. -/
inductive JsVal where
  | str (s : String)
  | num (n : Int)
  | null
  | undef
deriving DecidableEq, Repr

/-- A raw row object: association list from field identifier to value, in JS
key order. -/
abbrev Row := List (String × JsVal)

/-- JS property read `row[k]`: first binding wins, absent key yields
`undefined`. -/
def jsGet (row : Row) (k : String) : JsVal :=
  match row.find? (fun p => p.1 == k) with
  | some p => p.2
  | none => JsVal.undef

/-- JS `row.hasOwnProperty(k)`. -/
def hasProp (row : Row) (k : String) : Bool :=
  row.any (fun p => p.1 == k)

/-- JS `Object.keys(row)` (insertion order, with duplicates impossible in real
JS objects; our association lists keep the first binding authoritative). -/
def objKeys (row : Row) : List String :=
  row.map Prod.fst

/-- JS `Map` from string keys, insertion ordered. -/
abbrev JsMap (α : Type) := List (String × α)

/-- JS `Map.prototype.get`. -/
def mget {α : Type} (m : JsMap α) (k : String) : Option α :=
  match m.find? (fun p => p.1 == k) with
  | some p => some p.2
  | none => none

/-- JS `Map.prototype.set`: update in place if present, else append. -/
def mset {α : Type} (m : JsMap α) (k : String) (v : α) : JsMap α :=
  match m with
  | [] => [(k, v)]
  | (k', v') :: rest =>
      if k' == k then (k', v) :: rest else (k', v') :: mset rest k v

/-- JS `Map.prototype.has`. -/
def mhas {α : Type} (m : JsMap α) (k : String) : Bool :=
  m.any (fun p => p.1 == k)

/-- Keys of a JS map in insertion order (JS `Array.from(map.keys())`). -/
def mkeys {α : Type} (m : JsMap α) : List String :=
  m.map Prod.fst

/-- Read a key, defaulting to `d` when absent (get-or-create pattern of the
source: `if (!m.has(k)) m.set(k, d); const x = m.get(k)!`). -/
def mgetD {α : Type} (m : JsMap α) (k : String) (d : α) : α :=
  (mget m k).getD d

/-- JS truthiness of a scalar: `''`, `0`, `null`, `undefined` are falsy. -/
def jsTruthy : JsVal → Bool
  | JsVal.str s => !(s == "")
  | JsVal.num n => !(n == 0)
  | JsVal.null => false
  | JsVal.undef => false

/-- JS `String(v)` conversion. -/
def jsToString : JsVal → String
  | JsVal.str s => s
  | JsVal.num n => toString n
  | JsVal.null => "null"
  | JsVal.undef => "undefined"

/-- Per-element stringification of JS `Array.prototype.join`: `null` and
`undefined` become the empty string, other values their string conversion. -/
def joinElemStr : JsVal → String
  | JsVal.null => ""
  | JsVal.undef => ""
  | v => jsToString v

/-- Character-level join with a separator (the semantics of
`Array.prototype.join` once elements are stringified). -/
def joinChars (sep : List Char) : List (List Char) → List Char
  | [] => []
  | [x] => x
  | x :: y :: rest => x ++ sep ++ joinChars sep (y :: rest)

/-- JS `parts.join('|||')` on a list of strings. -/
def joinDelim (l : List String) : String :=
  String.mk (joinChars "|||".data (l.map String.data))

/-- ASCII lower-casing of one character (the source's `toLowerCase` is only
applied to field identifiers; all identifiers of interest are ASCII). -/
def lowerChar (c : Char) : Char :=
  if 'A' ≤ c ∧ c ≤ 'Z' then Char.ofNat (c.toNat + 32) else c

/-- JS `s.toLowerCase()` (ASCII fragment). -/
def jsToLower (s : String) : String :=
  String.mk (s.data.map lowerChar)

/-- Whitespace recognised by JS `String.prototype.trim` (ASCII fragment). -/
def isWsChar (c : Char) : Bool :=
  c == ' ' || c == '\t' || c == '\n' || c == '\r'

/-- JS `s.trim()`. -/
def jsTrim (s : String) : String :=
  String.mk (((s.data.dropWhile isWsChar).reverse.dropWhile isWsChar).reverse)

/-- Substring containment test on character lists. -/
def containsSub (needle : List Char) : List Char → Bool
  | [] => needle.isEmpty
  | c :: t => needle.isPrefixOf (c :: t) || containsSub needle t

/-- JS `a.includes(b)` on strings (substring containment). -/
def jsIncludes (a b : String) : Bool :=
  containsSub b.data a.data

/-- Identifier normalisation of the source: `fieldId.replace(/[\[\]]/g,
'').trim()` — strip every bracket character, then trim whitespace. -/
def normalizeId (s : String) : String :=
  jsTrim (String.mk (s.data.filter (fun c => !(c == '[') && !(c == ']'))))

/-- Splitting worker, structurally recursive on fuel (`fuel` starts at the
length of the subject, which bounds the number of steps). -/
def splitGo (sep : List Char) : Nat → List Char → List Char → List (List Char)
  | _, [], cur => [cur.reverse]
  | 0, l, cur => [cur.reverse ++ l]
  | fuel + 1, c :: rest, cur =>
      if sep.isPrefixOf (c :: rest) then
        cur.reverse :: splitGo sep fuel ((c :: rest).drop sep.length) []
      else
        splitGo sep fuel rest (c :: cur)

/-- JS `s.split(sep)` for a non-empty separator. -/
def jsSplit (s sep : String) : List String :=
  (splitGo sep.data s.data.length s.data []).map String.mk

/-- String comparison of JS' default `Array.prototype.sort` comparator
(lexicographic over UTF-16 code units; code-point comparison coincides on the
Basic Multilingual Plane). -/
def charsLe : List Char → List Char → Bool
  | [], _ => true
  | _ :: _, [] => false
  | a :: as, b :: bs =>
      if a.toNat < b.toNat then true
      else if b.toNat < a.toNat then false
      else charsLe as bs

/-- Lexicographic `≤` on strings, as used for key sorting. -/
def strLe (a b : String) : Bool :=
  charsLe a.data b.data

/-- Insertion into an ascending list (stable). -/
def insertSorted (a : String) : List String → List String
  | [] => [a]
  | b :: t => if strLe a b then a :: b :: t else b :: insertSorted a t

/-- Ascending string sort (`Array.prototype.sort()` on the unique key list). -/
def sortStrs (l : List String) : List String :=
  l.foldr insertSorted []

/-- Insertion into an ascending integer list. -/
def insertSortedInt (a : Int) : List Int → List Int
  | [] => [a]
  | b :: t => if a ≤ b then a :: b :: t else b :: insertSortedInt a t

/-- Ascending numeric sort (`[...columnValues].sort((a, b) => a - b)`). -/
def sortInts (l : List Int) : List Int :=
  l.foldr insertSortedInt []

/-- Deduplication preserving first occurrence (JS
`Array.from(new Set(list))`). -/
def dedupFirst (l : List String) : List String :=
  l.foldl (fun acc k => if acc.contains k then acc else acc ++ [k]) []

/-- Integer parse of a digit run. -/
def digitsToNat : List Char → Nat → Nat
  | [], acc => acc
  | c :: rest, acc =>
      if c.isDigit then digitsToNat rest (acc * 10 + (c.toNat - '0'.toNat))
      else acc

/-- Length of the leading digit run. -/
def digitRunLen : List Char → Nat
  | [] => 0
  | c :: rest => if c.isDigit then digitRunLen rest + 1 else 0

/-- JS `parseFloat` restricted to the integral fragment used in this
development: optional leading whitespace, optional sign, then a digit run
(a fractional part, if any, is truncated — all verified inputs are integral).
`none` models NaN. -/
def jsParseFloat (s : String) : Option Int :=
  let l := s.data.dropWhile isWsChar
  match l with
  | '-' :: rest =>
      if digitRunLen rest > 0 then some (-(Int.ofNat (digitsToNat (rest.take (digitRunLen rest)) 0))) else none
  | '+' :: rest =>
      if digitRunLen rest > 0 then some (Int.ofNat (digitsToNat (rest.take (digitRunLen rest)) 0)) else none
  | rest =>
      if digitRunLen rest > 0 then some (Int.ofNat (digitsToNat (rest.take (digitRunLen rest)) 0)) else none

/-! ## Rule, style and column model

The `Column` and rule shapes live in the repository's `types` module, which is
not under `src/`; their fields are reconstructed from every use site in
`exportToExcel.ts` (`vc.id`, `vc.name`, `vc.conditionalFormats`, `r.operator`,
`r.value1`, `r.value2`, `r.style.fontColor/bgColor/bold/italic`, `r.mode`,
`r.count`, `r.percent`, `r.minColor/midColor/maxColor`). -/

/-- Style payload carried by a conditional-format rule. -/
structure RuleStyle where
  fontColor : Option String := none
  bgColor : Option String := none
  bold : Bool := false
  italic : Bool := false
deriving DecidableEq, Repr

/-- Comparison operator of a cell-value rule. -/
inductive CmpOp where
  | gt | lt | gte | lte | eq | neq | between | contains
deriving DecidableEq, Repr

/-- Mode of a top/bottom rule. -/
inductive TBMode where
  | top | bottom
deriving DecidableEq, Repr

/-- Conditional-format rule (tagged union as in the source's
`ConditionalFormatRule`). -/
inductive Rule where
  | cellValue (operator : CmpOp) (value1 : JsVal) (value2 : Option JsVal)
      (style : RuleStyle)
  | topBottom (mode : TBMode) (count : Int) (percent : Bool) (style : RuleStyle)
  | colorScale (minColor : String) (midColor : Option String) (maxColor : String)
  | iconSet (family : String) (reversed : Bool)
deriving DecidableEq, Repr

/-- Column specification (fields used by the pivot engine). -/
structure Column where
  id : String
  name : String := ""
  conditionalFormats : List Rule := []
deriving DecidableEq, Repr

/-- Position of the grand-total column (`rowTotalsPosition: 'left' | 'right'`). -/
inductive RowTotalsPos where
  | left | right
deriving DecidableEq, Repr

/-- Position of the grand-total row (`columnTotalsPosition: 'top' | 'bottom'`). -/
inductive ColTotalsPos where
  | top | bottom
deriving DecidableEq, Repr

/-- Totals configuration object of `processPivotData`. -/
structure TotalsConfig where
  showRowTotals : Bool := false
  rowTotalsPosition : RowTotalsPos := RowTotalsPos.right
  showColumnTotals : Bool := false
  columnTotalsPosition : ColTotalsPos := ColTotalsPos.bottom
  showSubtotals : Bool := false
  columnTotalsLabel : Option String := none
deriving DecidableEq, Repr

/-- A JS style object (`React.CSSProperties`): property name to value, where a
present key with value `none` models a property assigned `undefined`. -/
abbrev StyleObj := JsMap (Option String)

/-- The empty style object `{}`. -/
def emptyStyle : StyleObj := []

/-- JS object spread `{ ...a, ...b }` on style objects. -/
def spreadMerge (a b : StyleObj) : StyleObj :=
  b.foldl (fun acc p => mset acc p.1 p.2) a

/-- JS `Object.keys(style).length > 0`. -/
def styleNonEmpty (s : StyleObj) : Bool :=
  !(List.isEmpty s)

/-- Reads one property of a style object (`some none` = key present but
`undefined`; `none` = key absent). -/
def styleGet (s : StyleObj) (k : String) : Option (Option String) :=
  mget s k

/-- Spread step common to the cell-value and top/bottom branches:
`style = { ...style, color: fontColor, backgroundColor: bgColor, fontWeight:
bold ? 'bold' : undefined, fontStyle: italic ? 'italic' : undefined }`. -/
def applyRuleStyle (style : StyleObj) (rs : RuleStyle) : StyleObj :=
  mset (mset (mset (mset style "color" rs.fontColor)
    "backgroundColor" rs.bgColor)
    "fontWeight" (if rs.bold then some "bold" else none))
    "fontStyle" (if rs.italic then some "italic" else none)

/-! ## Color scale helper (`getColorFromScale`) -/

/-- Value of one hexadecimal digit. -/
def hexDigitVal (c : Char) : Option Nat :=
  if c.isDigit then some (c.toNat - '0'.toNat)
  else if 'a' ≤ c ∧ c ≤ 'f' then some (c.toNat - 'a'.toNat + 10)
  else if 'A' ≤ c ∧ c ≤ 'F' then some (c.toNat - 'A'.toNat + 10)
  else none

/-- Parses a two-digit hex pair. -/
def hexPair : List Char → Option Nat
  | [h, l] =>
      match hexDigitVal h, hexDigitVal l with
      | some a, some b => some (a * 16 + b)
      | _, _ => none
  | _ => none

/-- The source's `hexToRgb`: match `^#?([a-f\d]{2})([a-f\d]{2})([a-f\d]{2})$`
(case-insensitive), defaulting to black on failure. -/
def hexToRgb (hex : String) : Int × Int × Int :=
  let l := match hex.data with
    | '#' :: rest => rest
    | l => l
  match l with
  | [a, b, c, d, e, f] =>
      match hexPair [a, b], hexPair [c, d], hexPair [e, f] with
      | some r, some g, some bl => (Int.ofNat r, Int.ofNat g, Int.ofNat bl)
      | _, _, _ => (0, 0, 0)
  | _ => (0, 0, 0)

/-- Lowercase hex digit of a value below 16. -/
def hexChar (n : Nat) : Char :=
  if n < 10 then Char.ofNat ('0'.toNat + n) else Char.ofNat ('a'.toNat + (n - 10))

/-- Two lowercase hex digits of a channel value (channels produced by the
interpolation always lie in `[0, 255]`, as in the source's
`((1 << 24) + (r << 16) + (g << 8) + b).toString(16).slice(1)`). -/
def toHex2 (n : Int) : List Char :=
  [hexChar (n.toNat / 16 % 16), hexChar (n.toNat % 16)]

/-- The source's `rgbToHex`. -/
def rgbToHex (r g b : Int) : String :=
  String.mk ('#' :: (toHex2 r ++ toHex2 g ++ toHex2 b))

/-- The source's `interpolate`: `Math.round(start + (end - start) * factor)`;
the float arithmetic is modelled exactly over `ℚ`. -/
def interpolateChan (s e : Int) (factor : ℚ) : Int :=
  round ((s : ℚ) + ((e : ℚ) - (s : ℚ)) * factor)

/-- Interpolates all three channels between two colors. -/
def interpolateColor (c1 c2 : String) (factor : ℚ) : String :=
  let a := hexToRgb c1
  let b := hexToRgb c2
  rgbToHex (interpolateChan a.1 b.1 factor) (interpolateChan a.2.1 b.2.1 factor)
    (interpolateChan a.2.2 b.2.2 factor)

/-- The source's `getColorFromScale` (ratios modelled exactly over `ℚ`). -/
def getColorFromScale (value mn mx : Int) (minColor maxColor : String)
    (midColor : Option String) : String :=
  if value ≤ mn then minColor
  else if value ≥ mx then maxColor
  else
    match midColor with
    | some mc =>
        let mid : ℚ := ((mn : ℚ) + (mx : ℚ)) / 2
        if (value : ℚ) < mid then
          let factor := ((value : ℚ) - (mn : ℚ)) / (mid - (mn : ℚ))
          interpolateColor minColor mc factor
        else
          let factor := ((value : ℚ) - mid) / ((mx : ℚ) - mid)
          interpolateColor mc maxColor factor
    | none =>
        let factor := ((value : ℚ) - (mn : ℚ)) / ((mx : ℚ) - (mn : ℚ))
        interpolateColor minColor maxColor factor

/-! ## Conditional formatting engine (`applyConditionalFormatting`) -/

/-- Numeric coercion applied to `cellValue`: a number stays itself, anything
else goes through `parseFloat(String(cellValue))`; `none` models NaN. -/
def numValueOf : JsVal → Option Int
  | JsVal.num n => some n
  | v => jsParseFloat (jsToString v)

/-- The source's `v2` computation: `r.value2 ? parseFloat(String(r.value2)) :
0` (a falsy `value2` — absent, empty string or zero — yields `0`). -/
def ruleValue2 (value2 : Option JsVal) : Option Int :=
  match value2 with
  | some v => if jsTruthy v then jsParseFloat (jsToString v) else some 0
  | none => some 0

/-- Cell-value rule evaluation when `numValue` is NaN: only `contains`, `eq`
and `neq` can match, with string semantics. -/
def cellValueMatchNaN (op : CmpOp) (cellValue value1 : JsVal) : Bool :=
  (op == CmpOp.contains && jsIncludes (jsToString cellValue) (jsToString value1))
  || (op == CmpOp.eq && jsToString cellValue == jsToString value1)
  || (op == CmpOp.neq && !(jsToString cellValue == jsToString value1))

/-- Cell-value rule evaluation when `numValue` is a number; `v1`/`v2` may be
NaN (`none`), and every NaN comparison is `false` except `!==`, which is
`true`. -/
def cellValueMatchNum (op : CmpOp) (nv : Int) (v1 v2 : Option Int) : Bool :=
  match op with
  | CmpOp.gt => match v1 with | some a => nv > a | none => false
  | CmpOp.lt => match v1 with | some a => nv < a | none => false
  | CmpOp.gte => match v1 with | some a => nv ≥ a | none => false
  | CmpOp.lte => match v1 with | some a => nv ≤ a | none => false
  | CmpOp.eq => match v1 with | some a => nv == a | none => false
  | CmpOp.neq => match v1 with | some a => !(nv == a) | none => true
  | CmpOp.between =>
      (match v1 with | some a => nv ≥ a | none => false)
      && (match v2 with | some b => nv ≤ b | none => false)
  | CmpOp.contains => false

/-- Threshold index computed by the top/bottom branch: in percent mode
`count = Math.ceil(len * (r.count / 100))` with no bounds clamping; in count
mode `Math.max(0, len - count)` (top) or `Math.min(len - 1, count - 1)`
(bottom). -/
def topBottomRawIndex (mode : TBMode) (percent : Bool) (count : Int)
    (len : Int) : Int :=
  if percent then
    let cnt : Int := (len * count).ediv 100 + (if (len * count).emod 100 == 0 then 0 else 1)
    match mode with
    | TBMode.top => len - cnt
    | TBMode.bottom => cnt - 1
  else
    match mode with
    | TBMode.top => max 0 (len - count)
    | TBMode.bottom => min (len - 1) (count - 1)

/-- JS array read `sorted[i]` with an `Int` index: out-of-bounds (including
negative) yields `undefined`, modelled as `none`. -/
def jsIdx (l : List Int) (i : Int) : Option Int :=
  if 0 ≤ i then l.get? i.toNat else none

/-- Top/bottom rule evaluation for a numeric cell: sort the population
ascending, select the threshold at `topBottomRawIndex`, then compare; a
comparison against `undefined` is `false`. -/
def topBottomMatch (mode : TBMode) (percent : Bool) (count : Int) (nv : Int)
    (columnValues : List Int) : Bool :=
  match mode, jsIdx (sortInts columnValues)
      (topBottomRawIndex mode percent count
        (Int.ofNat (sortInts columnValues).length)) with
  | TBMode.top, some t => nv ≥ t
  | TBMode.bottom, some t => nv ≤ t
  | _, none => false

/-- One rule application step of `applyConditionalFormatting`'s loop. -/
def applyOneRule (cellValue : JsVal) (columnValues : List Int)
    (style : StyleObj) (rule : Rule) : StyleObj :=
  match rule with
  | Rule.cellValue op value1 value2 rs =>
      let numValue := numValueOf cellValue
      let v1 := jsParseFloat (jsToString value1)
      let v2 := ruleValue2 value2
      let m := match numValue with
        | none => cellValueMatchNaN op cellValue value1
        | some nv => cellValueMatchNum op nv v1 v2
      if m then applyRuleStyle style rs else style
  | Rule.topBottom mode count percent rs =>
      match numValueOf cellValue with
      | none => style
      | some nv =>
          if topBottomMatch mode percent count nv columnValues then
            applyRuleStyle style rs
          else style
  | Rule.colorScale minColor midColor maxColor =>
      match numValueOf cellValue with
      | none => style
      | some nv =>
          match columnValues with
          | [] =>
              -- `Math.min()` of no arguments is `+Infinity` and `Math.max()`
              -- is `-Infinity`, so `min !== max` holds and `value <= min`
              -- short-circuits `getColorFromScale` to `minColor`.
              mset style "backgroundColor" (some minColor)
          | v :: vs =>
              let mn := vs.foldl min v
              let mx := vs.foldl max v
              if mn == mx then style
              else mset style "backgroundColor"
                (some (getColorFromScale nv mn mx minColor maxColor midColor))
  | Rule.iconSet _ _ =>
      -- No branch of `applyConditionalFormatting` handles icon sets; the
      -- rule falls through with the style unchanged.
      style

/-- The source's `applyConditionalFormatting`: `null` yields `{}`, otherwise
the rules are folded in array order. -/
def applyConditionalFormatting (cellValue : JsVal) (rules : List Rule)
    (columnValues : List Int) : StyleObj :=
  match cellValue with
  | JsVal.null => emptyStyle
  | v => rules.foldl (applyOneRule v columnValues) emptyStyle

/-! ## Field resolution (`parseVal`, `findFieldValue`, field-name mapping) -/

/-- The source's `parseVal`: numbers pass through; strings are stripped to
`[0-9.-]` characters and parsed, with `|| 0` turning NaN into `0`; anything
else is `0`. -/
def parseVal : JsVal → Int
  | JsVal.num n => n
  | JsVal.str s =>
      let clean := String.mk (s.data.filter (fun c => c.isDigit || c == '.' || c == '-'))
      (jsParseFloat clean).getD 0
  | _ => 0

/-- The source's `findFieldValue` (per-row, four strategies; `fieldName = ""`
models an absent display name). -/
def findFieldValue (row : Row) (fieldId : String) (fieldName : String) : JsVal :=
  if hasProp row fieldId && !(jsGet row fieldId == JsVal.undef) then
    jsGet row fieldId
  else if !(fieldName == "") && hasProp row fieldName
      && !(jsGet row fieldName == JsVal.undef) then
    jsGet row fieldName
  else
    let normalizedId := normalizeId fieldId
    if !(normalizedId == "") && !(normalizedId == fieldId)
        && hasProp row normalizedId && !(jsGet row normalizedId == JsVal.undef) then
      jsGet row normalizedId
    else
      let fieldIdLower := jsToLower fieldId
      let normalizedIdLower := jsToLower normalizedId
      let fieldNameLower := jsToLower fieldName
      match (objKeys row).find? (fun key =>
          let keyLower := jsToLower key
          keyLower == fieldIdLower || keyLower == normalizedIdLower
            || (!(fieldName == "") && keyLower == fieldNameLower)) with
      | some matchedKey =>
          if !(jsGet row matchedKey == JsVal.undef) then jsGet row matchedKey
          else JsVal.undef
      | none => JsVal.undef

/-- One entry of the dataset-level field-name mapping: scan the first row's
keys with strategies 1–4, where strategy 4 additionally accepts substring
containment in either direction (`keyLower.includes(vcIdLower) ||
vcIdLower.includes(keyLower)`, and likewise for the normalised id). -/
def findActualField (firstRow : Row) (vc : Column) : Option String :=
  let normalizedId := normalizeId vc.id
  if hasProp firstRow vc.id then some vc.id
  else if !(vc.name == "") && hasProp firstRow vc.name then some vc.name
  else if !(normalizedId == "") && !(normalizedId == vc.id)
      && hasProp firstRow normalizedId then some normalizedId
  else
    let vcIdLower := jsToLower vc.id
    let normalizedIdLower := jsToLower normalizedId
    let vcNameLower := jsToLower vc.name
    (objKeys firstRow).find? (fun key =>
      let keyLower := jsToLower key
      (keyLower == vcIdLower || keyLower == normalizedIdLower
          || (!(vc.name == "") && keyLower == vcNameLower))
        || (jsIncludes keyLower vcIdLower || jsIncludes vcIdLower keyLower)
        || (!(normalizedIdLower == "")
            && (jsIncludes keyLower normalizedIdLower
              || jsIncludes normalizedIdLower keyLower)))

/-- The source's `fieldNameMapping`, built once from the first data row. -/
def buildFieldNameMapping (firstRow : Row) (valueCols : List Column) :
    JsMap String :=
  valueCols.foldl (fun m vc =>
    match findActualField firstRow vc with
    | some k => mset m vc.id k
    | none => m) []

/-! ## Key builder -/

/-- The reserved grand-total key. -/
def TOTAL_KEY : String := "___TOTAL___"

/-- RowKey of a row: `groupCols.map(c => row[c.id]).join('|||')`. -/
def rowKeyOf (groupCols : List Column) (row : Row) : String :=
  joinDelim (groupCols.map (fun c => joinElemStr (jsGet row c.id)))

/-- ColumnKey of a row: `pivotCols.map(c => row[c.id]).join('|||')`. -/
def colKeyOf (pivotCols : List Column) (row : Row) : String :=
  joinDelim (pivotCols.map (fun c => joinElemStr (jsGet row c.id)))

/-- Unique row keys in data order, sorted ascending. -/
def baseSortedRowKeys (data : List Row) (groupCols : List Column) :
    List String :=
  sortStrs (dedupFirst (data.map (rowKeyOf groupCols)))

/-- Unique column keys (the single empty key when there are no pivot
columns), sorted ascending. -/
def baseColKeys (data : List Row) (pivotCols : List Column) : List String :=
  if pivotCols.isEmpty then [""]
  else sortStrs (dedupFirst (data.map (colKeyOf pivotCols)))

/-- Step 4 of the source: row keys with the TOTAL key injected at the
configured edge when column totals are enabled. -/
def finalRowKeys (data : List Row) (groupCols : List Column)
    (tc : Option TotalsConfig) : List String :=
  let sorted := baseSortedRowKeys data groupCols
  match tc with
  | some t =>
      if t.showColumnTotals then
        match t.columnTotalsPosition with
        | ColTotalsPos.top => TOTAL_KEY :: sorted
        | ColTotalsPos.bottom => sorted ++ [TOTAL_KEY]
      else sorted
  | none => sorted

/-- Step 4 of the source: column keys with the TOTAL key injected at the
configured edge when row totals are enabled. -/
def finalColKeys (data : List Row) (pivotCols : List Column)
    (tc : Option TotalsConfig) : List String :=
  let ck := baseColKeys data pivotCols
  match tc with
  | some t =>
      if t.showRowTotals then
        match t.rowTotalsPosition with
        | RowTotalsPos.left => TOTAL_KEY :: ck
        | RowTotalsPos.right => ck ++ [TOTAL_KEY]
      else ck
  | none => ck

/-! ## Aggregation store (`valueMap`) -/

/-- The nested `Map<string, Map<string, Map<string, any>>>`. -/
abbrev ValueMap := JsMap (JsMap (JsMap JsVal))

/-- Get-or-create update of one `(RowKey, ColumnKey)` cell map, mirroring the
source's `if (!m.has(k)) m.set(k, new Map()); const x = m.get(k)!; …`
followed by in-place mutation of `x`. -/
def setCell (vm : ValueMap) (rKey cKey : String)
    (f : JsMap JsVal → JsMap JsVal) : ValueMap :=
  let rMap := mgetD vm rKey []
  let cMap := mgetD rMap cKey []
  mset vm rKey (mset rMap cKey (f cMap))

/-- The base-population value resolution of one row: first the cached mapped
field name, then `findFieldValue` (with the name of the first value column
sharing the id, per `valueCols.find(vc => vc.id === fieldId)`). -/
def resolveRowValue (row : Row) (vc : Column) (valueCols : List Column)
    (mapping : JsMap String) : JsVal :=
  let fallbackName :=
    match valueCols.find? (fun c => c.id == vc.id) with
    | some c => c.name
    | none => ""
  match mget mapping vc.id with
  | some mappedFieldName =>
      if hasProp row mappedFieldName
          && !(jsGet row mappedFieldName == JsVal.undef) then
        jsGet row mappedFieldName
      else findFieldValue row vc.id fallbackName
  | none => findFieldValue row vc.id fallbackName

/-- Stores the value columns of one row into its cell map: always under the
field id, and additionally under the mapped actual field name when it differs
and the value is defined. -/
def storeRowValues (valueCols : List Column) (mapping : JsMap String)
    (row : Row) (cMap : JsMap JsVal) : JsMap JsVal :=
  valueCols.foldl (fun cm vc =>
    let value := resolveRowValue row vc valueCols mapping
    let cm := mset cm vc.id value
    match mget mapping vc.id with
    | some mapped =>
        if !(mapped == vc.id) && !(value == JsVal.undef) then
          mset cm mapped value
        else cm
    | none => cm) cMap

/-- Base population pass over the dataset. -/
def populateBase (data : List Row) (groupCols pivotCols valueCols : List Column)
    (mapping : JsMap String) : ValueMap :=
  data.foldl (fun vm row =>
    let rKey := rowKeyOf groupCols row
    let cKey := if pivotCols.length > 0 then colKeyOf pivotCols row else ""
    setCell vm rKey cKey (storeRowValues valueCols mapping row)) []

/-- Totals value resolution: `findFieldValue` first, then the cached mapping
as fallback, then numeric coercion through `parseVal`. -/
def totalsCellValue (row : Row) (vc : Column) (mapping : JsMap String) : Int :=
  let val := findFieldValue row vc.id vc.name
  let val :=
    if val == JsVal.undef then
      match mget mapping vc.id with
      | some mapped => jsGet row mapped
      | none => val
    else val
  parseVal val

/-- Injection of the precomputed per-row grand totals (`rcData`) under
`(RowKey, TOTAL_KEY)`. -/
def injectRowTotals (vm : ValueMap) (rcData : List Row)
    (groupCols valueCols : List Column) (mapping : JsMap String) : ValueMap :=
  rcData.foldl (fun vm row =>
    let rKey := rowKeyOf groupCols row
    setCell vm rKey TOTAL_KEY (fun cm =>
      valueCols.foldl (fun cm vc =>
        mset cm vc.id (JsVal.num (totalsCellValue row vc mapping))) cm)) vm

/-- Injection of the precomputed per-column grand totals (`gcData`) under
`(TOTAL_KEY, ColumnKey)`. -/
def injectColTotals (vm : ValueMap) (gcData : List Row)
    (pivotCols valueCols : List Column) (mapping : JsMap String) : ValueMap :=
  gcData.foldl (fun vm row =>
    let cKey := if pivotCols.length > 0 then colKeyOf pivotCols row else ""
    setCell vm TOTAL_KEY cKey (fun cm =>
      valueCols.foldl (fun cm vc =>
        mset cm vc.id (JsVal.num (totalsCellValue row vc mapping))) cm)) vm

/-- The global (TOTAL × TOTAL) cell: sum of the `gcData` values per value
column — the only true aggregation in the engine. -/
def globalTotals (gcData : List Row) (valueCols : List Column)
    (mapping : JsMap String) : JsMap Int :=
  gcData.foldl (fun gm row =>
    valueCols.foldl (fun gm vc =>
      let parsedVal := totalsCellValue row vc mapping
      let current := (mget gm vc.id).getD 0
      mset gm vc.id (current + parsedVal)) gm) []

/-- Stores the global total under `(TOTAL_KEY, TOTAL_KEY)`. -/
def injectGlobalTotal (vm : ValueMap) (gcData : List Row)
    (valueCols : List Column) (mapping : JsMap String) : ValueMap :=
  let gm := globalTotals gcData valueCols mapping
  setCell vm TOTAL_KEY TOTAL_KEY (fun cm =>
    valueCols.foldl (fun cm vc =>
      mset cm vc.id (JsVal.num ((mget gm vc.id).getD 0))) cm)

/-! ## Data matrix -/

/-- Cell lookup of step 6: field id, then mapped name, then normalised id,
then a case-insensitive scan over the cell map's keys; a still-undefined value
becomes `null`. -/
def matrixCellValue (vm : ValueMap) (mapping : JsMap String)
    (rKey cKey : String) (vc : Column) : JsVal :=
  match (mget vm rKey).bind (fun rMap => mget rMap cKey) with
  | none => JsVal.null
  | some cMap =>
      let val := (mget cMap vc.id).getD JsVal.undef
      let val :=
        if val == JsVal.undef then
          match mget mapping vc.id with
          | some mapped => (mget cMap mapped).getD JsVal.undef
          | none => JsVal.undef
        else val
      let val :=
        if val == JsVal.undef then
          let normalizedId := normalizeId vc.id
          let v2 := (mget cMap normalizedId).getD JsVal.undef
          if !(v2 == JsVal.undef) then v2
          else if !(vc.name == "") then
            match (mkeys cMap).find? (fun key =>
                jsToLower key == jsToLower vc.id
                  || jsToLower key == jsToLower normalizedId
                  || jsToLower key == jsToLower vc.name) with
            | some mk => (mget cMap mk).getD JsVal.undef
            | none => JsVal.undef
          else JsVal.undef
        else val
      if val == JsVal.undef then JsVal.null else val

/-- The raw data matrix: one row per RowKey, one slot per
(ColumnKey × value column) pair in ColumnKey-major order. -/
def rawMatrix (vm : ValueMap) (mapping : JsMap String)
    (valueCols : List Column) (fRowKeys fColKeys : List String) :
    List (List JsVal) :=
  fRowKeys.map (fun rKey =>
    fColKeys.flatMap (fun cKey =>
      valueCols.map (fun vc => matrixCellValue vm mapping rKey cKey vc)))

/-! ## Row headers -/

/-- Row-header cell. -/
structure PivotRowHeader where
  value : String
  rowSpan : Nat
  colSpan : Nat
  isVisible : Bool
  style : StyleObj := []
deriving DecidableEq, Repr

/-- The grand-total label: `totalsConfig?.columnTotalsLabel || 'Grand Total'`
(an empty configured label is falsy and also falls back). -/
def grandTotalLabel (tc : Option TotalsConfig) : String :=
  match tc with
  | some t =>
      match t.columnTotalsLabel with
      | some s => if s == "" then "Grand Total" else s
      | none => "Grand Total"
  | none => "Grand Total"

/-- Bold style literal `{ fontWeight: 'bold' }`. -/
def boldStyle : StyleObj := [("fontWeight", some "bold")]

/-- Label of a non-total row-header cell:
`String(rowData[col.id] || '(Blank)')`. -/
def renderHeaderValue (v : JsVal) : String :=
  if jsTruthy v then jsToString v else "(Blank)"

/-- Step 5: the unmerged header cells of one output row.  A non-total key's
representative row is the first data row producing that key (`rowKeyMap`). -/
def mkRowHeaderCells (groupCols : List Column) (tc : Option TotalsConfig)
    (data : List Row) (rKey : String) : List PivotRowHeader :=
  if rKey == TOTAL_KEY then
    (List.range groupCols.length).map (fun idx =>
      { value := if idx == 0 then grandTotalLabel tc else ""
        rowSpan := 1
        colSpan := if idx == 0 then groupCols.length else 1
        isVisible := idx == 0
        style := boldStyle })
  else
    let rowData := (data.find? (fun r => rowKeyOf groupCols r == rKey)).getD []
    groupCols.map (fun col =>
      { value := renderHeaderValue (jsGet rowData col.id)
        rowSpan := 1
        colSpan := 1
        isVisible := true
        style := [] })

/-- Merge condition of the span loop at level `j`: the cell's own value and
every shallower level's value is unchanged from the previous row (prefix
equality up to index `j`). -/
def prefixMatch (j : Nat) (a b : List String) : Bool :=
  a.take (j + 1) == b.take (j + 1)

/-- Worker of the span loop, walking the rows once with the previous row at
hand (the loop compares each row with its predecessor): returns the
(rowSpan, isVisible) assignment of the remaining rows, together with the
length of their leading chain of consecutive merges against `prev`.  A row
that merges keeps span 1 and turns invisible; a row that starts a run is
visible and its span is 1 plus the chain merging into it. -/
def spanColAux (j : Nat) : List (List String) → List String →
    List (Nat × Bool) × Nat
  | [], _ => ([], 0)
  | r :: rest, prev =>
      if prefixMatch j prev r then
        ((1, false) :: (spanColAux j rest r).1, (spanColAux j rest r).2 + 1)
      else
        ((1 + (spanColAux j rest r).2, true) :: (spanColAux j rest r).1, 0)

/-- Per-level (rowSpan, isVisible) assignment of the span loop: each maximal
run of prefix-equal consecutive rows keeps its first cell visible carrying the
run length, and hides the rest (their spans stay `1`). -/
def spanColumn (j : Nat) : List (List String) → List (Nat × Bool)
  | [] => []
  | r :: rest => (1 + (spanColAux j rest r).2, true) :: (spanColAux j rest r).1

/-- In-place update of the `j`-th entry of a list. -/
def updateNth {α : Type} (j : Nat) (f : α → α) : List α → List α
  | [] => []
  | a :: t =>
      match j with
      | 0 => f a :: t
      | j' + 1 => a :: updateNth j' f t

/-- Grid of row-header cells. -/
abbrev Grid := List (List PivotRowHeader)

/-- Values of one header row. -/
def rowValuesAt (cells : List PivotRowHeader) : List String :=
  cells.map (fun c => c.value)

/-- Applies the level-`j` span assignment to the grid. -/
def applySpanLevel (j : Nat) (rows : Grid) : Grid :=
  (rows.zip (spanColumn j (rows.map rowValuesAt))).map (fun p =>
    updateNth j (fun c => { c with rowSpan := p.2.1, isVisible := p.2.2 }) p.1)

/-- Applies the span loop for every group-column level (levels are
independent: the loop reads only cell values, which it never mutates). -/
def applySpans (levels : Nat) (rows : Grid) : Grid :=
  (List.range levels).foldl (fun rs j => applySpanLevel j rs) rows

/-- Start index of the span loop: skips a grand-total row at the top. -/
def spanStartIdx (tc : Option TotalsConfig) : Nat :=
  match tc with
  | some t =>
      if t.showColumnTotals && t.columnTotalsPosition == ColTotalsPos.top then 1
      else 0
  | none => 0

/-- Rows cut from the end of the span loop: skips a grand-total row at the
bottom. -/
def spanEndCut (tc : Option TotalsConfig) : Nat :=
  match tc with
  | some t =>
      if t.showColumnTotals && t.columnTotalsPosition == ColTotalsPos.bottom
      then 1 else 0
  | none => 0

/-- The span computation on the region `[startIndex, endIndex)`, with the
grand-total row (always at the configured edge, by construction of
`finalRowKeys`) left untouched. -/
def spanPass (tc : Option TotalsConfig) (levels : Nat) (temp : Grid) : Grid :=
  temp.take (spanStartIdx tc)
    ++ applySpans levels ((temp.drop (spanStartIdx tc)).take
        ((temp.length - spanEndCut tc) - spanStartIdx tc))
    ++ temp.drop (temp.length - spanEndCut tc)

/-- Cell read of the header grid. -/
def gridGet (g : Grid) (i j : Nat) : Option PivotRowHeader :=
  (g.get? i).bind (fun row => row.get? j)

/-- Cell update of the header grid. -/
def gridModify (g : Grid) (i j : Nat) (f : PivotRowHeader → PivotRowHeader) :
    Grid :=
  updateNth i (updateNth j f) g

/-- One `(colIdx, rowIdx)` step of the row-header conditional-formatting pass:
a visible non-'Grand Total' cell with a matching rule set gets the style, which
is also spread onto all deeper-level cells of every row absorbed by its
vertical span. -/
def headerCFStep (groupCols : List Column) (g : Grid) (colIdx rowIdx : Nat) :
    Grid :=
  match groupCols.get? colIdx, gridGet g rowIdx colIdx with
  | some groupCol, some header =>
      if header.isVisible && !(header.value == "Grand Total") then
        if styleNonEmpty (applyConditionalFormatting (JsVal.str header.value)
            groupCol.conditionalFormats []) then
          (List.range (if header.rowSpan == 0 then 1 else header.rowSpan)).foldl
            (fun g2 spanOffset =>
              if rowIdx + spanOffset < g2.length then
                (List.range groupCols.length).foldl (fun g3 childColIdx =>
                  if colIdx + 1 ≤ childColIdx then
                    gridModify g3 (rowIdx + spanOffset) childColIdx (fun c =>
                      { c with style := spreadMerge c.style (applyConditionalFormatting (JsVal.str header.value) groupCol.conditionalFormats []) })
                  else g3) g2
              else g2)
            (gridModify g rowIdx colIdx (fun c =>
              { c with style := applyConditionalFormatting (JsVal.str header.value) groupCol.conditionalFormats [] }))
        else g
      else g
  | _, _ => g

/-- The row-header conditional-formatting pass (column-major, as in the
source). -/
def headerCFPass (groupCols : List Column) (g : Grid) : Grid :=
  (List.range groupCols.length).foldl (fun g colIdx =>
    match groupCols.get? colIdx with
    | some groupCol =>
        if !groupCol.conditionalFormats.isEmpty then
          (List.range g.length).foldl (fun g' rowIdx =>
            headerCFStep groupCols g' colIdx rowIdx) g
        else g
    | none => g) g

/-! ## Data-cell conditional formatting -/

/-- Numeric extraction used for the column population: numbers directly,
strings through `parseFloat` when not NaN. -/
def numericOfCell : JsVal → Option Int
  | JsVal.num n => some n
  | JsVal.str s => jsParseFloat s
  | _ => none

/-- The column population: every numeric value in the same matrix column slot
over all output rows (grand-total rows included). -/
def columnPopulation (raw : List (List JsVal)) (colIdx : Nat) : List Int :=
  raw.filterMap (fun row => numericOfCell (row.getD colIdx JsVal.undef))

/-- Row-dimension styles for a data cell: per group level, rules evaluated
against the row-header value unless it is the literal `'Grand Total'`. -/
def groupContribution (groupCols : List Column) (headers : Grid)
    (rowIdx : Nat) : List StyleObj :=
  (List.range groupCols.length).map (fun groupColIdx =>
    match groupCols.get? groupColIdx with
    | some groupCol =>
        if !groupCol.conditionalFormats.isEmpty then
          match gridGet headers rowIdx groupColIdx with
          | some rowHeader =>
              if !(rowHeader.value == "Grand Total") then
                applyConditionalFormatting (JsVal.str rowHeader.value)
                  groupCol.conditionalFormats []
              else emptyStyle
          | none => emptyStyle
        else emptyStyle
    | none => emptyStyle)

/-- Column-dimension styles for a data cell: skipped entirely when the
column's pivot key is falsy or the TOTAL key; otherwise per pivot level
against the split key's entry. -/
def pivotContribution (pivotCols : List Column) (colKeys : List String)
    (valueColsLen colIdx : Nat) : List StyleObj :=
  let pivotKeyIdx := colIdx / valueColsLen
  let pivotKey := (colKeys.get? pivotKeyIdx).getD ""
  if !(pivotKey == "") && !(pivotKey == TOTAL_KEY) then
    let pivotValues := jsSplit pivotKey "|||"
    (List.range pivotCols.length).map (fun level =>
      match pivotCols.get? level with
      | some pivotCol =>
          if !pivotCol.conditionalFormats.isEmpty then
            applyConditionalFormatting (JsVal.str (pivotValues.getD level ""))
              pivotCol.conditionalFormats []
          else emptyStyle
      | none => emptyStyle)
  else []

/-- Value-column style for a data cell, evaluated against the actual scalar
with the full column population as context. -/
def valueContribution (valueCols : List Column) (raw : List (List JsVal))
    (val : JsVal) (colIdx : Nat) : StyleObj :=
  match valueCols.get? (colIdx % valueCols.length) with
  | some valueCol =>
      if !valueCol.conditionalFormats.isEmpty then
        applyConditionalFormatting val valueCol.conditionalFormats
          (columnPopulation raw colIdx)
      else emptyStyle
  | none => emptyStyle

/-- The combined style of one data cell: group parts, then pivot parts, then
the value part, merged left to right by object spread. -/
def combinedStyleAt (groupCols pivotCols valueCols : List Column)
    (headers : Grid) (colKeys : List String) (raw : List (List JsVal))
    (rowIdx colIdx : Nat) : StyleObj :=
  let val := (raw.getD rowIdx []).getD colIdx JsVal.undef
  (groupContribution groupCols headers rowIdx
      ++ pivotContribution pivotCols colKeys valueCols.length colIdx
      ++ [valueContribution valueCols raw val colIdx]).foldl
    spreadMerge emptyStyle

/-- Output data cell. -/
structure PivotCell where
  value : JsVal
  style : StyleObj := []
deriving DecidableEq, Repr

/-- Indexed map worker. -/
def mapWithIdxGo {α β : Type} (f : Nat → α → β) : Nat → List α → List β
  | _, [] => []
  | i, a :: t => f i a :: mapWithIdxGo f (i + 1) t

/-- Indexed map. -/
def mapWithIdx {α β : Type} (f : Nat → α → β) (l : List α) : List β :=
  mapWithIdxGo f 0 l

/-- The styled data matrix: the raw matrix wrapped into cells, with the
style loop applied to every column index below the first row's width. -/
def styledDataMatrix (groupCols pivotCols valueCols : List Column)
    (headers : Grid) (colKeys : List String) (raw : List (List JsVal)) :
    List (List PivotCell) :=
  mapWithIdx (fun rowIdx row =>
    mapWithIdx (fun colIdx (v : JsVal) =>
      if colIdx < (raw.headD []).length then
        if styleNonEmpty (combinedStyleAt groupCols pivotCols valueCols headers
            colKeys raw rowIdx colIdx) then
          ({ value := v
             style := combinedStyleAt groupCols pivotCols valueCols headers
               colKeys raw rowIdx colIdx } : PivotCell)
        else { value := v, style := [] }
      else { value := v, style := [] }) row) raw

/-! ## Column headers -/

/-- Column-header cell. -/
structure HeaderCell where
  label : String
  colSpan : Nat
  style : StyleObj := []
deriving DecidableEq, Repr

/-- The cartesian expansion of (ColumnKey × value column), ColumnKey-major. -/
def expandedKeys (fColKeys : List String) (valueCols : List Column) :
    List (String × Column) :=
  fColKeys.flatMap (fun k => valueCols.map (fun v => (k, v)))

/-- Label of one expanded entry at one pivot level: the TOTAL key shows
`'Grand Total'` only at level 0, real keys show the split entry. -/
def headerLabelOf (level : Nat) (pivotKey : String) : String :=
  if pivotKey == TOTAL_KEY then
    if level == 0 then "Grand Total" else ""
  else (jsSplit pivotKey "|||").getD level ""

/-- Merge condition between consecutive expanded entries: two TOTAL keys
always match, mixed TOTAL/real never match, two real keys match when every
shallower level's split entry coincides. -/
def headerParentsMatch (level : Nat) (prevKey itemKey : String) : Bool :=
  if prevKey == TOTAL_KEY && itemKey == TOTAL_KEY then true
  else if !(prevKey == TOTAL_KEY) && !(itemKey == TOTAL_KEY) then
    let pv := jsSplit itemKey "|||"
    let ppv := jsSplit prevKey "|||"
    (List.range level).all (fun p => pv.get? p == ppv.get? p)
  else false

/-- Emits the pending run as one header cell (bold when its label is the
configured grand-total label). -/
def flushHeaderCell (tc : Option TotalsConfig) (currentLabel : Option String)
    (currentSpan : Nat) (acc : List HeaderCell) : List HeaderCell :=
  match currentLabel with
  | none => acc
  | some lbl =>
      acc ++ [{ label := lbl, colSpan := currentSpan
                style := if lbl == grandTotalLabel tc then boldStyle else [] }]

/-- Builds one pivot-level header row by the run-merging fold of the source
(`currentLabel`/`currentSpan`, comparing each entry with its predecessor). -/
def buildLevelRow (tc : Option TotalsConfig) (level : Nat)
    (expanded : List (String × Column)) : List HeaderCell :=
  let fin := expanded.foldl
    (fun (st : Option String × Option String × Nat × List HeaderCell) item =>
      let label := headerLabelOf level item.1
      let pm := match st.1 with
        | none => true
        | some pk => headerParentsMatch level pk item.1
      if some label == st.2.1 && pm && st.1.isSome then
        (some item.1, st.2.1, st.2.2.1 + 1, st.2.2.2)
      else
        (some item.1, some label, 1, flushHeaderCell tc st.2.1 st.2.2.1 st.2.2.2))
    (none, none, 0, [])
  flushHeaderCell tc fin.2.1 fin.2.2.1 fin.2.2.2

/-- Column-header conditional formatting for one level: a truthy label other
than `'Grand Total'` with a nonempty matching style gets it (replacing any
previous style). -/
def cfLevelRow (pivotCol : Column) (row : List HeaderCell) : List HeaderCell :=
  if !pivotCol.conditionalFormats.isEmpty then
    row.map (fun header =>
      if !(header.label == "") && !(header.label == "Grand Total") then
        if styleNonEmpty (applyConditionalFormatting (JsVal.str header.label)
            pivotCol.conditionalFormats []) then
          { header with style := applyConditionalFormatting (JsVal.str header.label) pivotCol.conditionalFormats [] }
        else header
      else header)
  else row

/-- Step 7: one header row per pivot level plus a trailing row of value-column
names when value columns exist. -/
def buildHeaderRows (tc : Option TotalsConfig)
    (pivotCols valueCols : List Column) (fColKeys : List String) :
    List (List HeaderCell) :=
  let expanded := expandedKeys fColKeys valueCols
  mapWithIdx (fun level pc => cfLevelRow pc (buildLevelRow tc level expanded))
      pivotCols
    ++ (if valueCols.isEmpty then []
        else [expanded.map (fun item =>
          ({ label := item.2.name, colSpan := 1, style := [] } : HeaderCell))])

/-! ## Result assembly (`processPivotData`) -/

/-- The output structure. -/
structure PivotDataResult where
  headerRows : List (List HeaderCell)
  rowHeaders : Grid
  dataMatrix : List (List PivotCell)
deriving DecidableEq

/-- The source's `processPivotData`. -/
def processPivotData (data : List Row)
    (groupCols pivotCols valueCols : List Column)
    (totalsConfig : Option TotalsConfig)
    (gcData rcData : Option (List Row)) : PivotDataResult :=
  if data.isEmpty then
    { headerRows := [], rowHeaders := [], dataMatrix := [] }
  else
    let mapping := buildFieldNameMapping (data.headD []) valueCols
    let vm0 := populateBase data groupCols pivotCols valueCols mapping
    let vm1 :=
      match totalsConfig, rcData with
      | some tc, some rc =>
          if tc.showRowTotals && !rc.isEmpty then
            injectRowTotals vm0 rc groupCols valueCols mapping
          else vm0
      | _, _ => vm0
    let vm2 :=
      match totalsConfig, gcData with
      | some tc, some gc =>
          if tc.showColumnTotals && !gc.isEmpty then
            let vmx := injectColTotals vm1 gc pivotCols valueCols mapping
            if tc.showRowTotals then
              injectGlobalTotal vmx gc valueCols mapping
            else vmx
          else vm1
      | _, _ => vm1
    let fRowKeys := finalRowKeys data groupCols totalsConfig
    let fColKeys := finalColKeys data pivotCols totalsConfig
    let temp0 := fRowKeys.map (mkRowHeaderCells groupCols totalsConfig data)
    let temp1 := spanPass totalsConfig groupCols.length temp0
    let temp2 := headerCFPass groupCols temp1
    let raw := rawMatrix vm2 mapping valueCols fRowKeys fColKeys
    let dm := styledDataMatrix groupCols pivotCols valueCols temp2 fColKeys raw
    let hr := buildHeaderRows totalsConfig pivotCols valueCols fColKeys
    { headerRows := hr, rowHeaders := temp2, dataMatrix := dm }

/-! ## Generic helper lemmas -/

theorem updateNth_length {α : Type} (j : Nat) (f : α → α) (l : List α) :
    (updateNth j f l).length = l.length := by
  induction l generalizing j with
  | nil => simp [updateNth]
  | cons a t ih =>
      cases j with
      | zero => simp [updateNth]
      | succ j' => simpa [updateNth] using ih j'

theorem updateNth_map {α β : Type} (j : Nat) (f : α → α) (p : α → β)
    (h : ∀ a, p (f a) = p a) (l : List α) :
    (updateNth j f l).map p = l.map p := by
  induction l generalizing j with
  | nil => simp [updateNth]
  | cons a t ih =>
      cases j with
      | zero => simp [updateNth, h]
      | succ j' => simp [updateNth, ih j']

theorem updateNth_get? {α : Type} (j : Nat) (f : α → α) (l : List α)
    (m : Nat) :
    (updateNth j f l).get? m = if j = m then (l.get? m).map f else l.get? m := by
  induction l generalizing j m with
  | nil => simp [updateNth]
  | cons a t ih =>
      cases j with
      | zero =>
          cases m with
          | zero => simp [updateNth]
          | succ m' => simp [updateNth]
      | succ j' =>
          cases m with
          | zero => simp [updateNth]
          | succ m' => simpa [updateNth] using ih j' m'

theorem foldl_pres {α β γ : Type} (p : α → γ) (f : α → β → α)
    (h : ∀ a b, p (f a b) = p a) (l : List β) (a : α) :
    p (l.foldl f a) = p a := by
  induction l generalizing a with
  | nil => rfl
  | cons b t ih => rw [List.foldl_cons, ih, h]

theorem foldl_ind {α β : Type} (P : α → Prop) (f : α → β → α)
    (h : ∀ a b, P a → P (f a b)) (l : List β) (a : α) (ha : P a) :
    P (l.foldl f a) := by
  induction l generalizing a with
  | nil => exact ha
  | cons b t ih => exact ih (f a b) (h a b ha)

theorem mapWithIdxGo_length {α β : Type} (f : Nat → α → β) (i : Nat)
    (l : List α) : (mapWithIdxGo f i l).length = l.length := by
  induction l generalizing i with
  | nil => rfl
  | cons a t ih => simpa [mapWithIdxGo] using ih (i + 1)

theorem mapWithIdx_length {α β : Type} (f : Nat → α → β) (l : List α) :
    (mapWithIdx f l).length = l.length :=
  mapWithIdxGo_length f 0 l

theorem mapWithIdxGo_get? {α β : Type} (f : Nat → α → β) (i : Nat)
    (l : List α) (m : Nat) :
    (mapWithIdxGo f i l).get? m = (l.get? m).map (f (i + m)) := by
  induction l generalizing i m with
  | nil => simp [mapWithIdxGo]
  | cons a t ih =>
      cases m with
      | zero => simp [mapWithIdxGo]
      | succ m' =>
          have := ih (i + 1) m'
          simpa [mapWithIdxGo, Nat.add_assoc, Nat.add_comm 1 m'] using this

theorem mapWithIdx_get? {α β : Type} (f : Nat → α → β) (l : List α)
    (m : Nat) : (mapWithIdx f l).get? m = (l.get? m).map (f m) := by
  simpa [mapWithIdx] using mapWithIdxGo_get? f 0 l m

theorem mem_mapWithIdxGo {α β : Type} (f : Nat → α → β) (i : Nat)
    (l : List α) (b : β) (hb : b ∈ mapWithIdxGo f i l) :
    ∃ j a, a ∈ l ∧ b = f j a := by
  induction l generalizing i with
  | nil => simp [mapWithIdxGo] at hb
  | cons a t ih =>
      simp only [mapWithIdxGo, List.mem_cons] at hb
      rcases hb with h | h
      · exact ⟨i, a, List.mem_cons_self a t, h⟩
      · rcases ih (i + 1) h with ⟨j, a', ha', hval⟩
        exact ⟨j, a', List.mem_cons_of_mem a ha', hval⟩

theorem mem_mapWithIdx {α β : Type} (f : Nat → α → β) (l : List α) (b : β)
    (hb : b ∈ mapWithIdx f l) : ∃ j a, a ∈ l ∧ b = f j a :=
  mem_mapWithIdxGo f 0 l b hb

theorem flatMap_const_length {α β : Type} (g : α → List β) (m : Nat)
    (l : List α) (h : ∀ a ∈ l, (g a).length = m) :
    (l.flatMap g).length = l.length * m := by
  induction l with
  | nil => simp
  | cons a t ih =>
      simp only [List.flatMap_cons, List.length_append,
        h a (List.mem_cons_self a t),
        ih (fun a ha => h a (List.mem_cons_of_mem _ ha)), List.length_cons]
      ring

/-! ## Concrete sample inputs used by the closed theorems -/

/-- East/A/100 row of the end-to-end scenario. -/
def sampleRow1 : Row :=
  [("region", JsVal.str "East"), ("product", JsVal.str "A"),
    ("sales", JsVal.num 100)]

/-- East/B/200 row of the end-to-end scenario. -/
def sampleRow2 : Row :=
  [("region", JsVal.str "East"), ("product", JsVal.str "B"),
    ("sales", JsVal.num 200)]

/-- West/A/50 row of the end-to-end scenario. -/
def sampleRow3 : Row :=
  [("region", JsVal.str "West"), ("product", JsVal.str "A"),
    ("sales", JsVal.num 50)]

/-- The end-to-end scenario dataset. -/
def sampleData : List Row := [sampleRow1, sampleRow2, sampleRow3]

/-- Group columns of the end-to-end scenario. -/
def sampleGroupCols : List Column := [{ id := "region", name := "region" }]

/-- Pivot columns of the end-to-end scenario. -/
def samplePivotCols : List Column := [{ id := "product", name := "product" }]

/-- Value columns of the end-to-end scenario. -/
def sampleValueCols : List Column := [{ id := "sales", name := "sales" }]

/-- Row whose only key carries brackets and surrounding whitespace. -/
def bracketRow : Row := [("  [Sales Amount]  ", JsVal.num 42)]

/-- Value column configured with the bare id `Sales Amount`. -/
def salesAmountCol : Column := { id := "Sales Amount", name := "Sales Amount" }

/-! ## C2 — end-to-end scenario -/

/-- C2: on rows East/A/100, East/B/200, West/A/50 with group `[region]`,
pivot `[product]`, value `[sales]` and no totals, the engine produces RowKeys
`["East", "West"]`, ColumnKeys `["A", "B"]` and the matrix
`[[100, 200], [50, null]]` with the missing West×B slot `null`, not `0`. -/
theorem end_to_end_east_west :
    finalRowKeys sampleData sampleGroupCols none = ["East", "West"] ∧
    finalColKeys sampleData samplePivotCols none = ["A", "B"] ∧
    (processPivotData sampleData sampleGroupCols samplePivotCols sampleValueCols
        none none none).dataMatrix.map (fun row => row.map (fun c => c.value)) =
      [[JsVal.num 100, JsVal.num 200], [JsVal.num 50, JsVal.null]] := by
  decide

/-! ## C8 — empty dataset -/

/-- C8: a zero-row dataset yields the empty `PivotDataResult` (empty header
rows, row headers and matrix) for every column and totals configuration, with
no exception. -/
theorem empty_dataset_empty_result (groupCols pivotCols valueCols : List Column)
    (tc : Option TotalsConfig) (gcData rcData : Option (List Row)) :
    processPivotData [] groupCols pivotCols valueCols tc gcData rcData =
      { headerRows := [], rowHeaders := [], dataMatrix := [] } := rfl

/-! ## C3 — grand-total placement -/

/-- C3: with `showRowTotals` the TOTAL marker is the last entry of the
column-key sequence for position `'right'` and the first for `'left'`;
symmetrically, with `showColumnTotals` it is appended to (`'bottom'`) or
prepended to (`'top'`) the sorted RowKey sequence. -/
theorem total_marker_placement (data : List Row)
    (groupCols pivotCols : List Column) (t : TotalsConfig) :
    (t.showRowTotals = true →
      (t.rowTotalsPosition = RowTotalsPos.right →
        (finalColKeys data pivotCols (some t)).getLast? = some TOTAL_KEY) ∧
      (t.rowTotalsPosition = RowTotalsPos.left →
        (finalColKeys data pivotCols (some t)).head? = some TOTAL_KEY)) ∧
    (t.showColumnTotals = true →
      (t.columnTotalsPosition = ColTotalsPos.bottom →
        (finalRowKeys data groupCols (some t)).getLast? = some TOTAL_KEY) ∧
      (t.columnTotalsPosition = ColTotalsPos.top →
        (finalRowKeys data groupCols (some t)).head? = some TOTAL_KEY)) := by
  constructor
  · intro hs
    constructor
    · intro hp
      simp [finalColKeys, hs, hp]
    · intro hp
      simp [finalColKeys, hs, hp]
  · intro hs
    constructor
    · intro hp
      simp [finalRowKeys, hs, hp]
    · intro hp
      simp [finalRowKeys, hs, hp]

/-- Configuration with both grand totals enabled (row totals on the right,
column totals at the bottom). -/
def bothTotalsTc : TotalsConfig :=
  { showRowTotals := true, rowTotalsPosition := RowTotalsPos.right,
    showColumnTotals := true, columnTotalsPosition := ColTotalsPos.bottom }

/-- Witness for C3 at a concrete configuration (both totals enabled,
row totals on the right, column totals at the bottom). -/
theorem total_marker_placement_witness :
    (finalColKeys sampleData samplePivotCols (some bothTotalsTc)).getLast? =
      some TOTAL_KEY ∧
    (finalRowKeys sampleData sampleGroupCols (some bothTotalsTc)).getLast? =
      some TOTAL_KEY := by
  refine ⟨((total_marker_placement sampleData sampleGroupCols samplePivotCols
    _).1 rfl).1 rfl, ((total_marker_placement sampleData sampleGroupCols
    samplePivotCols _).2 rfl).1 rfl⟩

/-! ## C6 — top/bottom threshold index -/

/-- C6 counterexample: in percent mode no clamping is applied — for a
`top, count = 200%` rule over the population `[1, 2, 3]` the source computes
`sorted[3 - ceil(3 × 200 / 100)] = sorted[-3]`, an out-of-bounds read
(JS yields `undefined`, so the rule matches nothing). -/
theorem topbottom_index_unclamped_counterexample :
    topBottomRawIndex TBMode.top true 200 3 = -3 ∧
    ¬(0 ≤ topBottomRawIndex TBMode.top true 200 3) ∧
    topBottomMatch TBMode.top true 200 3 [1, 2, 3] = false := by
  decide

/-- An index outside `[0, length)` reads `undefined` from the sorted array. -/
theorem jsIdx_eq_none (l : List Int) (i : Int)
    (h : ¬(0 ≤ i ∧ i < Int.ofNat l.length)) : jsIdx l i = none := by
  unfold jsIdx
  split_ifs with h0
  · have hle : Int.ofNat l.length ≤ i := by
      rcases lt_or_ge i (Int.ofNat l.length) with hlt | hge
      · exact absurd ⟨h0, hlt⟩ h
      · exact hge
    apply List.get?_eq_none.mpr
    have h2 : (Int.ofNat l.length).toNat ≤ i.toNat := Int.toNat_le_toNat hle
    simpa using h2
  · rfl

/-- C6 amended: in count (non-percent) mode with `count ≥ 1` the threshold
index is clamped into the bounds of the sorted population on both sides; in
percent mode no clamping is applied, so the index can fall outside the array,
in which case the threshold is `undefined` and the rule matches nothing —
evaluation is total in every case. -/
theorem topbottom_index_amended :
    (∀ (mode : TBMode) (count len : Int), 1 ≤ count → 1 ≤ len →
      0 ≤ topBottomRawIndex mode false count len ∧
        topBottomRawIndex mode false count len < len) ∧
    (∀ (mode : TBMode) (percent : Bool) (count nv : Int) (vals : List Int),
      ¬(0 ≤ topBottomRawIndex mode percent count (Int.ofNat (sortInts vals).length) ∧
          topBottomRawIndex mode percent count (Int.ofNat (sortInts vals).length) <
            Int.ofNat (sortInts vals).length) →
      topBottomMatch mode percent count nv vals = false) := by
  constructor
  · intro mode count len hc hl
    cases mode with
    | top =>
        refine ⟨le_max_left 0 _, max_lt_iff.mpr ⟨by omega, by omega⟩⟩
    | bottom =>
        refine ⟨le_min_iff.mpr ⟨by omega, by omega⟩,
          min_lt_iff.mpr (Or.inl (by omega))⟩
  · intro mode percent count nv vals h
    unfold topBottomMatch
    rw [jsIdx_eq_none _ _ h]
    cases mode <;> rfl

/-- Witness for C6 amended: count mode `top 2` over three values keeps the
index in bounds, and the out-of-bounds percent case matches nothing. -/
theorem topbottom_index_amended_witness :
    (0 ≤ topBottomRawIndex TBMode.top false 2 3 ∧
      topBottomRawIndex TBMode.top false 2 3 < 3) ∧
    topBottomMatch TBMode.top true 200 3 [1, 2, 3] = false := by
  refine ⟨topbottom_index_amended.1 TBMode.top 2 3 (by decide) (by decide),
    topbottom_index_amended.2 TBMode.top true 200 3 [1, 2, 3] (by decide)⟩

/-! ## C5 — field resolution of a bracketed, padded key -/


/-- C5 counterexample: for the row `{"  [Sales Amount]  ": 42}` and column id
`Sales Amount`, the bracket/whitespace-stripping tier does not fire — the
stripped id equals the id itself (the source requires `normalizedId !==
fieldId`), and the row key keeps its brackets, so per-row `findFieldValue`
fails all four tiers and returns `undefined`; the value is nevertheless
resolved, because the dataset-level field-name mapping matches the key by
substring containment. -/
theorem field_resolution_tier_counterexample :
    normalizeId "Sales Amount" = "Sales Amount" ∧
    findFieldValue bracketRow "Sales Amount" "Sales Amount" = JsVal.undef ∧
    findActualField bracketRow salesAmountCol = some "  [Sales Amount]  " ∧
    (processPivotData [bracketRow] [] [] [salesAmountCol]
        none none none).dataMatrix.map
      (fun row => row.map (fun c => c.value)) = [[JsVal.num 42]] := by
  decide

/-- C5 amended: the value 42 reaches the data matrix, but via the
substring-containment tier of the dataset-level field-name mapping, not the
bracket/whitespace-stripping tier: the exact, display-name and stripped-id
strategies all fail on the first row, the case-insensitive comparison fails
too, and the mapping finally matches because the lower-cased row key contains
the lower-cased column id as a substring. -/
theorem field_resolution_via_substring_tier :
    hasProp bracketRow "Sales Amount" = false ∧
    hasProp bracketRow (normalizeId "Sales Amount") = false ∧
    (jsToLower "  [Sales Amount]  " == jsToLower "Sales Amount") = false ∧
    jsIncludes (jsToLower "  [Sales Amount]  ") (jsToLower "Sales Amount") = true ∧
    findActualField bracketRow salesAmountCol = some "  [Sales Amount]  " ∧
    (processPivotData [bracketRow] [] [] [salesAmountCol]
        none none none).dataMatrix.map
      (fun row => row.map (fun c => c.value)) = [[JsVal.num 42]] := by
  decide

/-! ## C9 — RowKey collision through the `'|||'` delimiter -/

/-- First row of the delimiter-collision pair. -/
def collideRowA : Row := [("a", JsVal.str "x|||y"), ("b", JsVal.str "z")]

/-- Second row of the delimiter-collision pair. -/
def collideRowB : Row := [("a", JsVal.str "x"), ("b", JsVal.str "y|||z")]

/-- Group columns of the delimiter-collision pair. -/
def collideGroupCols : List Column := [{ id := "a" }, { id := "b" }]

/-- C9 counterexample: the join delimiter `'|||'` does collide with real
data — the rows `{a: "x|||y", b: "z"}` and `{a: "x", b: "y|||z"}` have
different stringified group values yet produce the same RowKey
`"x|||y|||z"`, so they would be aggregated together. -/
theorem rowkey_delimiter_collision_counterexample :
    rowKeyOf collideGroupCols collideRowA = rowKeyOf collideGroupCols collideRowB ∧
    ¬(collideGroupCols.map (fun c => joinElemStr (jsGet collideRowA c.id)) =
        collideGroupCols.map (fun c => joinElemStr (jsGet collideRowB c.id))) := by
  decide

/-- Splitting a character list at the first `'|'` is unambiguous when the
prefixes are `'|'`-free. -/
theorem pipe_append_inj : ∀ (a b suf1 suf2 : List Char), '|' ∉ a → '|' ∉ b →
    a ++ '|' :: suf1 = b ++ '|' :: suf2 → a = b ∧ suf1 = suf2 := by
  intro a
  induction a with
  | nil =>
      intro b suf1 suf2 _ hb h
      cases b with
      | nil =>
          simp only [List.nil_append, List.cons.injEq] at h
          exact ⟨rfl, h.2⟩
      | cons c bt =>
          simp only [List.nil_append, List.cons_append, List.cons.injEq] at h
          exact absurd (h.1 ▸ List.mem_cons_self c bt) hb
  | cons c at' ih =>
      intro b suf1 suf2 ha hb h
      cases b with
      | nil =>
          simp only [List.cons_append, List.nil_append, List.cons.injEq] at h
          exact absurd (h.1.symm ▸ List.mem_cons_self c at') ha
      | cons c' bt =>
          simp only [List.cons_append, List.cons.injEq] at h
          obtain ⟨hc, ht⟩ := h
          have ha' : '|' ∉ at' := fun hm => ha (List.mem_cons_of_mem c hm)
          have hb' : '|' ∉ bt := fun hm => hb (List.mem_cons_of_mem c' hm)
          obtain ⟨he, hs⟩ := ih bt suf1 suf2 ha' hb' ht
          exact ⟨by rw [hc, he], hs⟩

/-- `joinChars` with the `'|||'` separator is injective on equal-length lists
of `'|'`-free character lists. -/
theorem joinChars_pipe_inj : ∀ (xs ys : List (List Char)),
    xs.length = ys.length → (∀ s ∈ xs, '|' ∉ s) → (∀ s ∈ ys, '|' ∉ s) →
    joinChars ['|', '|', '|'] xs = joinChars ['|', '|', '|'] ys → xs = ys := by
  intro xs
  induction xs with
  | nil =>
      intro ys hlen _ _ _
      cases ys with
      | nil => rfl
      | cons y yt => simp at hlen
  | cons x xt ih =>
      intro ys hlen hx hy h
      cases ys with
      | nil => simp at hlen
      | cons y yt =>
          cases xt with
          | nil =>
              cases yt with
              | nil =>
                  simp only [joinChars] at h
                  rw [h]
              | cons y2 ytt => simp at hlen
          | cons x2 xtt =>
              cases yt with
              | nil => simp at hlen
              | cons y2 ytt =>
                  have h' : x ++ '|' :: ('|' :: '|' ::
                        joinChars ['|', '|', '|'] (x2 :: xtt)) =
                      y ++ '|' :: ('|' :: '|' ::
                        joinChars ['|', '|', '|'] (y2 :: ytt)) := by
                    simpa [joinChars] using h
                  obtain ⟨hxy, htail⟩ := pipe_append_inj _ _ _ _
                    (hx x (List.mem_cons_self x _))
                    (hy y (List.mem_cons_self y _)) h'
                  simp only [List.cons.injEq] at htail
                  have hrec := ih (y2 :: ytt) (by simpa using hlen)
                    (fun s hs => hx s (List.mem_cons_of_mem x hs))
                    (fun s hs => hy s (List.mem_cons_of_mem y hs)) htail.2.2
                  rw [hxy, hrec]

/-- Strings with equal character data are equal. -/
theorem string_data_inj {a b : String} (h : a.data = b.data) : a = b := by
  cases a
  cases b
  exact congrArg String.mk h

/-- Lists of strings with equal data images are equal. -/
theorem map_data_inj : ∀ (l1 l2 : List String),
    l1.map String.data = l2.map String.data → l1 = l2 := by
  intro l1
  induction l1 with
  | nil =>
      intro l2 h
      cases l2 with
      | nil => rfl
      | cons b bt => simp at h
  | cons a t ih =>
      intro l2 h
      cases l2 with
      | nil => simp at h
      | cons b bt =>
          simp only [List.map_cons, List.cons.injEq] at h
          rw [string_data_inj h.1, ih bt h.2]

/-- The `'|||'` join is injective on equal-length lists of strings none of
which contains the character `'|'`. -/
theorem joinDelim_inj (l1 l2 : List String) (hlen : l1.length = l2.length)
    (h1 : ∀ s ∈ l1, '|' ∉ s.data) (h2 : ∀ s ∈ l2, '|' ∉ s.data)
    (h : joinDelim l1 = joinDelim l2) : l1 = l2 := by
  unfold joinDelim at h
  have hd := congrArg String.data h
  simp only [] at hd
  apply map_data_inj
  apply joinChars_pipe_inj _ _ (by simpa using hlen)
  · intro s hs
    rcases List.mem_map.mp hs with ⟨t, ht, rfl⟩
    exact h1 t ht
  · intro s hs
    rcases List.mem_map.mp hs with ⟨t, ht, rfl⟩
    exact h2 t ht
  · exact hd

/-- C9 amended: rows with pairwise identical stringified group-column values
always produce the same RowKey; the converse — equal RowKeys implying
pairwise identical values — holds provided no stringified group value
contains the delimiter character `'|'` (values containing `'|'` can collide,
as the counterexample shows).  ColumnKeys use the very same key function over
the pivot columns. -/
theorem rowkey_equality_amended :
    (∀ (groupCols : List Column) (r1 r2 : Row),
      groupCols.map (fun c => joinElemStr (jsGet r1 c.id)) =
        groupCols.map (fun c => joinElemStr (jsGet r2 c.id)) →
      rowKeyOf groupCols r1 = rowKeyOf groupCols r2) ∧
    (∀ (groupCols : List Column) (r1 r2 : Row),
      (∀ c ∈ groupCols, '|' ∉ (joinElemStr (jsGet r1 c.id)).data ∧
        '|' ∉ (joinElemStr (jsGet r2 c.id)).data) →
      rowKeyOf groupCols r1 = rowKeyOf groupCols r2 →
      groupCols.map (fun c => joinElemStr (jsGet r1 c.id)) =
        groupCols.map (fun c => joinElemStr (jsGet r2 c.id))) ∧
    colKeyOf = rowKeyOf := by
  refine ⟨?_, ?_, rfl⟩
  · intro g r1 r2 h
    unfold rowKeyOf
    rw [h]
  · intro g r1 r2 hfree h
    apply joinDelim_inj _ _ (by simp)
    · intro s hs
      rcases List.mem_map.mp hs with ⟨c, hc, rfl⟩
      exact (hfree c hc).1
    · intro s hs
      rcases List.mem_map.mp hs with ⟨c, hc, rfl⟩
      exact (hfree c hc).2
    · exact h

/-- Witness for C9 amended at concrete pipe-free rows: equal keys force equal
stringified group values. -/
theorem rowkey_equality_amended_witness :
    collideGroupCols.map (fun c =>
        joinElemStr (jsGet [("a", JsVal.str "u"), ("b", JsVal.str "v")] c.id)) =
      collideGroupCols.map (fun c =>
        joinElemStr (jsGet [("a", JsVal.str "u"), ("b", JsVal.str "v")] c.id)) := by
  exact rowkey_equality_amended.2.1 collideGroupCols _ _ (by decide) (by decide)

/-! ## Span-pass structure lemmas -/

/-- Sum of the rowSpans of the visible entries of a span assignment. -/
def visSum (l : List (Nat × Bool)) : Nat :=
  (l.map (fun p => if p.2 then p.1 else 0)).sum

/-- Contribution of one header row to the visible-span sum at level `j`. -/
def cellContribution (row : List PivotRowHeader) (j : Nat) : Nat :=
  match row.get? j with
  | some c => if c.isVisible then c.rowSpan else 0
  | none => 0

/-- Sum of `rowSpan` over the cells marked visible at level `j`. -/
def visSpanSum (g : Grid) (j : Nat) : Nat :=
  (g.map (fun row => cellContribution row j)).sum

theorem spanColAux_length (j : Nat) : ∀ (l : List (List String))
    (prev : List String), (spanColAux j l prev).1.length = l.length := by
  intro l
  induction l with
  | nil => intro prev; rfl
  | cons r rest ih =>
      intro prev
      unfold spanColAux
      split_ifs <;> simp [ih r]

theorem spanColumn_length (j : Nat) (l : List (List String)) :
    (spanColumn j l).length = l.length := by
  cases l with
  | nil => rfl
  | cons r rest => simp [spanColumn, spanColAux_length]

theorem visSum_append (a b : List (Nat × Bool)) :
    visSum (a ++ b) = visSum a + visSum b := by
  simp [visSum]

theorem visSum_cons (p : Nat × Bool) (l : List (Nat × Bool)) :
    visSum (p :: l) = (if p.2 then p.1 else 0) + visSum l := by
  simp [visSum]

theorem spanColAux_visSum (j : Nat) : ∀ (l : List (List String))
    (prev : List String),
    visSum (spanColAux j l prev).1 + (spanColAux j l prev).2 = l.length := by
  intro l
  induction l with
  | nil => intro prev; rfl
  | cons r rest ih =>
      intro prev
      unfold spanColAux
      split_ifs with h
      · have hih := ih r
        have hv : visSum ((1, false) :: (spanColAux j rest r).1) =
            visSum (spanColAux j rest r).1 := by
          simp [visSum]
        rw [hv, List.length_cons]
        omega
      · have hih := ih r
        have hv : visSum ((1 + (spanColAux j rest r).2, true) ::
            (spanColAux j rest r).1) =
            1 + (spanColAux j rest r).2 + visSum (spanColAux j rest r).1 := by
          simp [visSum]
        rw [hv, List.length_cons]
        omega

theorem visSum_spanColumn (j : Nat) (l : List (List String)) :
    visSum (spanColumn j l) = l.length := by
  cases l with
  | nil => rfl
  | cons r rest =>
      have hih := spanColAux_visSum j rest r
      have hv : visSum ((1 + (spanColAux j rest r).2, true) ::
          (spanColAux j rest r).1) =
          1 + (spanColAux j rest r).2 + visSum (spanColAux j rest r).1 := by
        simp [visSum]
      simp only [spanColumn]
      rw [hv, List.length_cons]
      omega

/-- Pointwise projections through the zip-and-update shape of
`applySpanLevel`. -/
theorem zip_update_map_proj {γ : Type} (j : Nat)
    (f : Nat × Bool → PivotRowHeader → PivotRowHeader)
    (proj : List PivotRowHeader → γ)
    (hproj : ∀ (s : Nat × Bool) (row : List PivotRowHeader),
      proj (updateNth j (f s) row) = proj row) :
    ∀ (rows : Grid) (svs : List (Nat × Bool)), svs.length = rows.length →
      ((rows.zip svs).map (fun q => updateNth j (f q.2) q.1)).map proj =
        rows.map proj := by
  intro rows
  induction rows with
  | nil => intro svs _; rfl
  | cons r rt ih =>
      intro svs hlen
      cases svs with
      | nil => simp at hlen
      | cons s st =>
          simp only [List.zip_cons_cons, List.map_cons, hproj]
          rw [ih st (by simpa using hlen)]

theorem applySpanLevel_values (j : Nat) (rows : Grid) :
    (applySpanLevel j rows).map rowValuesAt = rows.map rowValuesAt := by
  unfold applySpanLevel
  refine zip_update_map_proj j
    (fun s c => { c with rowSpan := s.1, isVisible := s.2 }) rowValuesAt
    ?_ rows _ ?_
  · intro s row
    apply updateNth_map
    intro c
    rfl
  · rw [spanColumn_length j (rows.map rowValuesAt)]
    simp

theorem applySpanLevel_rowlens (j : Nat) (rows : Grid) :
    (applySpanLevel j rows).map List.length = rows.map List.length := by
  unfold applySpanLevel
  refine zip_update_map_proj j
    (fun s c => { c with rowSpan := s.1, isVisible := s.2 }) List.length
    ?_ rows _ ?_
  · intro s row
    exact updateNth_length j _ row
  · rw [spanColumn_length j (rows.map rowValuesAt)]
    simp

theorem applySpanLevel_length (j : Nat) (rows : Grid) :
    (applySpanLevel j rows).length = rows.length := by
  have := congrArg List.length (applySpanLevel_rowlens j rows)
  simpa using this

/-- At its own level, the span pass installs exactly the `spanColumn`
assignment. -/
theorem applySpanLevel_contrib_same (j : Nat) (rows : Grid)
    (hrow : ∀ row ∈ rows, j < row.length) :
    (applySpanLevel j rows).map (fun row => cellContribution row j) =
      (spanColumn j (rows.map rowValuesAt)).map
        (fun p => if p.2 then p.1 else 0) := by
  unfold applySpanLevel
  have hlen : (spanColumn j (rows.map rowValuesAt)).length = rows.length := by
    rw [spanColumn_length j (rows.map rowValuesAt)]
    simp
  -- simultaneous induction over rows and the span assignment
  suffices hgen : ∀ (rs : Grid) (svs : List (Nat × Bool)),
      svs.length = rs.length → (∀ row ∈ rs, j < row.length) →
      ((rs.zip svs).map (fun q =>
          updateNth j (fun c =>
            { c with rowSpan := q.2.1, isVisible := q.2.2 }) q.1)).map
        (fun row => cellContribution row j) =
      svs.map (fun p => if p.2 then p.1 else 0) by
    exact hgen rows _ hlen hrow
  intro rs
  induction rs with
  | nil =>
      intro svs hl _
      rw [List.length_nil, List.length_eq_zero] at hl
      subst hl
      rfl
  | cons r rt ih =>
      intro svs hl hr
      cases svs with
      | nil => simp at hl
      | cons s st =>
          simp only [List.zip_cons_cons, List.map_cons]
          have hj : j < r.length := hr r (List.mem_cons_self r rt)
          have hcell : cellContribution
              (updateNth j (fun c =>
                { c with rowSpan := s.1, isVisible := s.2 }) r) j =
              if s.2 then s.1 else 0 := by
            unfold cellContribution
            rw [updateNth_get?]
            simp only [if_pos rfl]
            rcases List.get?_eq_get hj with h
            rw [h]
            rfl
          rw [hcell, ih st (by simpa using hl)
            (fun row hrow' => hr row (List.mem_cons_of_mem r hrow'))]

/-- At a different level, the span pass leaves contributions unchanged. -/
theorem applySpanLevel_contrib_other (j' j : Nat) (rows : Grid) (h : j' ≠ j) :
    (applySpanLevel j' rows).map (fun row => cellContribution row j) =
      rows.map (fun row => cellContribution row j) := by
  unfold applySpanLevel
  refine zip_update_map_proj j'
    (fun s c => { c with rowSpan := s.1, isVisible := s.2 })
    (fun row => cellContribution row j) ?_ rows _ ?_
  · intro s row
    simp only [cellContribution]
    rw [updateNth_get?]
    simp [h]
  · rw [spanColumn_length j' (rows.map rowValuesAt)]
    simp

theorem applySpans_succ (n : Nat) (rows : Grid) :
    applySpans (n + 1) rows = applySpanLevel n (applySpans n rows) := by
  simp [applySpans, List.range_succ]

theorem applySpans_values (n : Nat) (rows : Grid) :
    (applySpans n rows).map rowValuesAt = rows.map rowValuesAt := by
  induction n with
  | zero => rfl
  | succ n ih => rw [applySpans_succ, applySpanLevel_values, ih]

theorem applySpans_rowlens (n : Nat) (rows : Grid) :
    (applySpans n rows).map List.length = rows.map List.length := by
  induction n with
  | zero => rfl
  | succ n ih => rw [applySpans_succ, applySpanLevel_rowlens, ih]

theorem applySpans_length (n : Nat) (rows : Grid) :
    (applySpans n rows).length = rows.length := by
  have := congrArg List.length (applySpans_rowlens n rows)
  simpa using this

theorem applySpans_contrib (j n : Nat) (rows : Grid) (hj : j < n)
    (hrow : ∀ row ∈ rows, j < row.length) :
    (applySpans n rows).map (fun row => cellContribution row j) =
      (spanColumn j (rows.map rowValuesAt)).map
        (fun p => if p.2 then p.1 else 0) := by
  induction n with
  | zero => omega
  | succ n ih =>
      rw [applySpans_succ]
      rcases Nat.lt_succ_iff_lt_or_eq.mp hj with hlt | heq
      · rw [applySpanLevel_contrib_other n j _ (by omega), ih hlt]
      · subst heq
        have hrow' : ∀ row ∈ applySpans j rows, j < row.length := by
          intro row hmem
          have hmap := applySpans_rowlens j rows
          have : row.length ∈ (applySpans j rows).map List.length :=
            List.mem_map_of_mem List.length hmem
          rw [hmap] at this
          rcases List.mem_map.mp this with ⟨orig, horig, hlen⟩
          rw [← hlen]
          exact hrow orig horig
        rw [applySpanLevel_contrib_same j _ hrow', applySpans_values]

/-- Visible-span sum over the body region: with `j` below the level count and
all rows wide enough, the sum equals the row count. -/
theorem visSpanSum_applySpans (j n : Nat) (rows : Grid) (hj : j < n)
    (hrow : ∀ row ∈ rows, j < row.length) :
    visSpanSum (applySpans n rows) j = rows.length := by
  unfold visSpanSum
  rw [applySpans_contrib j n rows hj hrow]
  have h1 : ((spanColumn j (rows.map rowValuesAt)).map
      (fun p => if p.2 then p.1 else 0)).sum =
      visSum (spanColumn j (rows.map rowValuesAt)) := rfl
  rw [h1, visSum_spanColumn j (rows.map rowValuesAt)]
  simp

/-! ## Skeleton preservation of the header conditional-formatting pass -/

/-- The non-style content of a header cell. -/
def skelCell (c : PivotRowHeader) : String × Nat × Nat × Bool :=
  (c.value, c.rowSpan, c.colSpan, c.isVisible)

/-- The non-style content of a header row. -/
def rowSkel (row : List PivotRowHeader) : List (String × Nat × Nat × Bool) :=
  row.map skelCell

/-- The non-style content of the grid. -/
def gridSkel (g : Grid) : List (List (String × Nat × Nat × Bool)) :=
  g.map rowSkel

theorem gridSkel_gridModify (g : Grid) (i j : Nat)
    (F : PivotRowHeader → PivotRowHeader)
    (h : ∀ c, skelCell (F c) = skelCell c) :
    gridSkel (gridModify g i j F) = gridSkel g := by
  unfold gridSkel gridModify
  apply updateNth_map
  intro row
  unfold rowSkel
  exact updateNth_map j F skelCell h row

theorem gridSkel_headerCFStep (groupCols : List Column) (g : Grid)
    (colIdx rowIdx : Nat) :
    gridSkel (headerCFStep groupCols g colIdx rowIdx) = gridSkel g := by
  unfold headerCFStep
  rcases groupCols.get? colIdx with _ | groupCol
  · rfl
  · rcases gridGet g rowIdx colIdx with _ | header
    · rfl
    · dsimp only
      split_ifs with h1 h2 h3
      · refine Eq.trans (foldl_pres gridSkel _ ?_ _ _)
          (gridSkel_gridModify g rowIdx colIdx _ (fun c => rfl))
        intro a b
        split_ifs with ht
        · refine foldl_pres gridSkel _ ?_ _ _
          intro a2 b2
          split_ifs with hcc
          · exact gridSkel_gridModify _ _ _ _ (fun c => rfl)
          · rfl
        · rfl
      · refine Eq.trans (foldl_pres gridSkel _ ?_ _ _)
          (gridSkel_gridModify g rowIdx colIdx _ (fun c => rfl))
        intro a b
        split_ifs with ht
        · refine foldl_pres gridSkel _ ?_ _ _
          intro a2 b2
          split_ifs with hcc
          · exact gridSkel_gridModify _ _ _ _ (fun c => rfl)
          · rfl
        · rfl
      · rfl
      · rfl

theorem gridSkel_headerCFPass (groupCols : List Column) (g : Grid) :
    gridSkel (headerCFPass groupCols g) = gridSkel g := by
  unfold headerCFPass
  refine foldl_pres gridSkel _ ?_ _ _
  intro g' ci
  rcases groupCols.get? ci with _ | gcol
  · rfl
  · dsimp only
    split_ifs with h
    · refine foldl_pres gridSkel _ ?_ _ _
      intro g'' ri
      exact gridSkel_headerCFStep groupCols g'' ci ri
    · rfl

/-! ## Deriving shape facts from skeleton equality -/

theorem get?_map_eq {α β : Type} (f : α → β) : ∀ (l : List α) (n : Nat),
    (l.map f).get? n = (l.get? n).map f := by
  intro l
  induction l with
  | nil => intro n; cases n <;> rfl
  | cons a t ih =>
      intro n
      cases n with
      | zero => rfl
      | succ n' => exact ih n'

theorem length_of_gridSkel {g g' : Grid} (h : gridSkel g = gridSkel g') :
    g.length = g'.length := by
  have := congrArg List.length h
  simpa [gridSkel] using this

theorem cellContribution_of_rowSkel {r r' : List PivotRowHeader}
    (h : rowSkel r = rowSkel r') (j : Nat) :
    cellContribution r j = cellContribution r' j := by
  unfold cellContribution
  have hget : (r.get? j).map skelCell = (r'.get? j).map skelCell := by
    have h1 : (rowSkel r).get? j = (rowSkel r').get? j := by rw [h]
    unfold rowSkel at h1
    rw [get?_map_eq, get?_map_eq] at h1
    exact h1
  cases hr : r.get? j with
  | none =>
      cases hr' : r'.get? j with
      | none => rfl
      | some c' =>
          rw [hr, hr'] at hget
          exact absurd hget (by simp)
  | some c =>
      cases hr' : r'.get? j with
      | none =>
          rw [hr, hr'] at hget
          exact absurd hget (by simp)
      | some c' =>
          rw [hr, hr'] at hget
          simp only [Option.map_some', Option.some.injEq, skelCell,
            Prod.mk.injEq] at hget
          dsimp only
          rw [hget.2.1, hget.2.2.2]

theorem rowValuesAt_of_rowSkel {r r' : List PivotRowHeader}
    (h : rowSkel r = rowSkel r') : rowValuesAt r = rowValuesAt r' := by
  have h1 : (rowSkel r).map (fun q => q.1) = (rowSkel r').map (fun q => q.1) := by
    rw [h]
  simpa [rowSkel, rowValuesAt, List.map_map, Function.comp] using h1

theorem map_congr_of_skel {β : Type} (f : List PivotRowHeader → β)
    (hf : ∀ r r', rowSkel r = rowSkel r' → f r = f r') :
    ∀ (g g' : Grid), g.map rowSkel = g'.map rowSkel → g.map f = g'.map f := by
  intro g
  induction g with
  | nil =>
      intro g' h
      cases g' with
      | nil => rfl
      | cons r' t' => simp at h
  | cons r t ih =>
      intro g' h
      cases g' with
      | nil => simp at h
      | cons r' t' =>
          simp only [List.map_cons, List.cons.injEq] at h ⊢
          exact ⟨hf r r' h.1, ih t' h.2⟩

theorem visSpanSum_of_gridSkel {g g' : Grid} (h : gridSkel g = gridSkel g')
    (j : Nat) : visSpanSum g j = visSpanSum g' j := by
  unfold visSpanSum
  unfold gridSkel at h
  rw [map_congr_of_skel (fun row => cellContribution row j)
    (fun r r' h' => cellContribution_of_rowSkel h' j) g g' h]

theorem gridValues_of_gridSkel {g g' : Grid} (h : gridSkel g = gridSkel g') :
    g.map rowValuesAt = g'.map rowValuesAt := by
  unfold gridSkel at h
  exact map_congr_of_skel rowValuesAt (fun r r' h' => rowValuesAt_of_rowSkel h')
    g g' h

/-! ## Span pass assembly -/

/-- Whether the configuration requests a grand-total row. -/
def showsColumnTotals (tc : Option TotalsConfig) : Bool :=
  match tc with
  | some t => t.showColumnTotals
  | none => false

/-- Whether the configuration requests a grand-total column. -/
def showsRowTotals (tc : Option TotalsConfig) : Bool :=
  match tc with
  | some t => t.showRowTotals
  | none => false

theorem mkRowHeaderCells_length (groupCols : List Column)
    (tc : Option TotalsConfig) (data : List Row) (k : String) :
    (mkRowHeaderCells groupCols tc data k).length = groupCols.length := by
  unfold mkRowHeaderCells
  split_ifs <;> simp

theorem spanPass_length (tc : Option TotalsConfig) (levels : Nat)
    (temp : Grid) : (spanPass tc levels temp).length = temp.length := by
  unfold spanPass
  rcases tc with _ | t
  · simp [spanStartIdx, spanEndCut, applySpans_length]
  · rcases htc : t.columnTotalsPosition <;> rcases hsc : t.showColumnTotals <;>
      (simp only [spanStartIdx, spanEndCut, htc, hsc, List.length_append,
        List.length_take, List.length_drop, applySpans_length, Bool.false_and,
        Bool.and_self, if_true, if_false, Bool.true_and]
       simp
       try omega)

theorem visSpanSum_append (a b : Grid) (j : Nat) :
    visSpanSum (a ++ b) j = visSpanSum a j + visSpanSum b j := by
  simp [visSpanSum]

/-- Contribution of the grand-total header row at level `j`: its level-0 cell
is visible with span 1 and all deeper cells are hidden (absorbed by the
horizontal `colSpan` merge). -/
theorem totalRow_contribution (groupCols : List Column)
    (tc : Option TotalsConfig) (data : List Row) (j : Nat)
    (hj : j < groupCols.length) :
    cellContribution (mkRowHeaderCells groupCols tc data TOTAL_KEY) j =
      if j = 0 then 1 else 0 := by
  unfold mkRowHeaderCells cellContribution
  rw [if_pos (by simp)]
  rw [get?_map_eq]
  have hr : (List.range groupCols.length).get? j = some j := by
    rw [List.get?_eq_getElem?, List.getElem?_range hj]
  rw [hr]
  by_cases h0 : j = 0 <;> simp [h0]

/-- The rows produced by `mkRowHeaderCells` all have `groupCols.length`
cells. -/
theorem temp0_rowlens (groupCols : List Column) (tc : Option TotalsConfig)
    (data : List Row) (ks : List String) (j : Nat) (hj : j < groupCols.length) :
    ∀ row ∈ ks.map (mkRowHeaderCells groupCols tc data), j < row.length := by
  intro row hrow
  rcases List.mem_map.mp hrow with ⟨k, _, rfl⟩
  rw [mkRowHeaderCells_length]
  exact hj

/-- With no grand-total row the span pass covers the whole grid. -/
theorem spanPass_shape_none (tc : Option TotalsConfig) (levels : Nat)
    (temp : Grid) (hs : spanStartIdx tc = 0) (hc : spanEndCut tc = 0) :
    spanPass tc levels temp = applySpans levels temp := by
  unfold spanPass
  rw [hs, hc]
  simp

/-- With the grand-total row on top the span pass covers the tail. -/
theorem spanPass_shape_top (tc : Option TotalsConfig) (levels : Nat)
    (r0 : List PivotRowHeader) (rest : Grid) (hs : spanStartIdx tc = 1)
    (hc : spanEndCut tc = 0) :
    spanPass tc levels (r0 :: rest) = r0 :: applySpans levels rest := by
  unfold spanPass
  rw [hs, hc]
  have h1 : (r0 :: rest).take 1 = [r0] := by simp
  have h2 : (r0 :: rest).drop 1 = rest := by simp
  have h3 : ((r0 :: rest).length - 0) - 1 = rest.length := by simp
  have h4 : (r0 :: rest).drop ((r0 :: rest).length - 0) = [] := by
    apply List.drop_eq_nil_of_le
    simp
  rw [h1, h2, h3, h4, List.take_length]
  simp

/-- With the grand-total row at the bottom the span pass covers the front. -/
theorem spanPass_shape_bottom (tc : Option TotalsConfig) (levels : Nat)
    (body : Grid) (r0 : List PivotRowHeader) (hs : spanStartIdx tc = 0)
    (hc : spanEndCut tc = 1) :
    spanPass tc levels (body ++ [r0]) = applySpans levels body ++ [r0] := by
  unfold spanPass
  rw [hs, hc]
  have hlen : (body ++ [r0]).length - 1 = body.length := by simp
  rw [hlen]
  simp only [List.take_zero, List.drop_zero, Nat.sub_zero, List.nil_append]
  rw [List.take_left, List.drop_left]

/-- The visible-span sum of the span pass over the final key list: the row
count, minus one at levels ≥ 1 when a grand-total row is present. -/
theorem visSpanSum_spanPass_keys (data : List Row) (groupCols : List Column)
    (tc : Option TotalsConfig) (j : Nat) (hj : j < groupCols.length) :
    visSpanSum (spanPass tc groupCols.length
        ((finalRowKeys data groupCols tc).map
          (mkRowHeaderCells groupCols tc data))) j =
      (finalRowKeys data groupCols tc).length -
        (if showsColumnTotals tc = true ∧ 1 ≤ j then 1 else 0) := by
  have hbody : ∀ (ks : List String),
      visSpanSum (applySpans groupCols.length
        (ks.map (mkRowHeaderCells groupCols tc data))) j = ks.length := by
    intro ks
    rw [visSpanSum_applySpans j groupCols.length _ hj
      (temp0_rowlens groupCols tc data ks j hj)]
    simp
  have htotal : cellContribution (mkRowHeaderCells groupCols tc data
      TOTAL_KEY) j = if j = 0 then 1 else 0 :=
    totalRow_contribution groupCols tc data j hj
  rcases tc with _ | t
  · rw [spanPass_shape_none none groupCols.length _ rfl rfl, hbody]
    simp [finalRowKeys, showsColumnTotals]
  · rcases hsc : t.showColumnTotals with _ | _
    · have hkeys : finalRowKeys data groupCols (some t) =
          baseSortedRowKeys data groupCols := by
        simp [finalRowKeys, hsc]
      rw [hkeys, spanPass_shape_none (some t) groupCols.length _
        (by simp [spanStartIdx, hsc]) (by simp [spanEndCut, hsc]), hbody]
      simp [showsColumnTotals, hsc]
    · rcases htc : t.columnTotalsPosition
      · -- grand-total row on top
        have hkeys : finalRowKeys data groupCols (some t) =
            TOTAL_KEY :: baseSortedRowKeys data groupCols := by
          simp [finalRowKeys, hsc, htc]
        rw [hkeys, List.map_cons,
          spanPass_shape_top (some t) groupCols.length _ _
            (by simp [spanStartIdx, hsc, htc]) (by simp [spanEndCut, hsc, htc])]
        have hcons : visSpanSum (mkRowHeaderCells groupCols (some t) data
            TOTAL_KEY :: applySpans groupCols.length
              ((baseSortedRowKeys data groupCols).map
                (mkRowHeaderCells groupCols (some t) data))) j =
            cellContribution (mkRowHeaderCells groupCols (some t) data
              TOTAL_KEY) j + visSpanSum (applySpans groupCols.length
                ((baseSortedRowKeys data groupCols).map
                  (mkRowHeaderCells groupCols (some t) data))) j := by
          simp [visSpanSum]
        rw [hcons, htotal, hbody]
        simp only [showsColumnTotals, hsc, List.length_cons, true_and]
        split_ifs <;> omega
      · -- grand-total row at the bottom
        have hkeys : finalRowKeys data groupCols (some t) =
            baseSortedRowKeys data groupCols ++ [TOTAL_KEY] := by
          simp [finalRowKeys, hsc, htc]
        rw [hkeys, List.map_append, List.map_cons, List.map_nil,
          spanPass_shape_bottom (some t) groupCols.length _ _
            (by simp [spanStartIdx, hsc, htc]) (by simp [spanEndCut, hsc, htc]),
          visSpanSum_append, hbody]
        have h1 : visSpanSum [mkRowHeaderCells groupCols (some t) data
            TOTAL_KEY] j = if j = 0 then 1 else 0 := by
          simp [visSpanSum, htotal]
        rw [h1]
        simp only [showsColumnTotals, hsc, List.length_append,
          List.length_cons, List.length_nil, true_and]
        split_ifs <;> omega

/-! ## C4 — row-header merge law -/

/-- Row of the C4 counterexample. -/
def c4Row : Row :=
  [("a", JsVal.str "x"), ("b", JsVal.str "y"), ("s", JsVal.num 1)]

/-- Group columns of the C4 counterexample. -/
def c4GroupCols : List Column := [{ id := "a" }, { id := "b" }]

/-- Totals configuration of the C4 counterexample. -/
def c4Tc : TotalsConfig :=
  { showColumnTotals := true, columnTotalsPosition := ColTotalsPos.bottom }

/-- C4 counterexample: with two group columns and a grand-total row, the sum
of `rowSpan` over the cells marked visible at level 1 is 1, not the total row
count 2 — the grand-total row's deeper-level cells are hidden by the
horizontal `colSpan` merge, so the claimed law fails at levels ≥ 1 whenever a
grand-total row is present. -/
theorem rowspan_sum_counterexample :
    visSpanSum (processPivotData [c4Row] c4GroupCols [] [{ id := "s" }]
      (some c4Tc) none none).rowHeaders 1 = 1 ∧
    (processPivotData [c4Row] c4GroupCols [] [{ id := "s" }]
      (some c4Tc) none none).rowHeaders.length = 2 ∧
    ¬(visSpanSum (processPivotData [c4Row] c4GroupCols [] [{ id := "s" }]
        (some c4Tc) none none).rowHeaders 1 =
      (processPivotData [c4Row] c4GroupCols [] [{ id := "s" }]
        (some c4Tc) none none).rowHeaders.length) := by
  decide

/-- C4 amended: at level 0 the sum of `rowSpan` over visible cells equals the
number of output rows; at levels ≥ 1 it equals the number of output rows
minus one when a grand-total row is present (whose deeper cells are hidden by
its level-0 cell's horizontal `colSpan` span), and the full row count
otherwise. -/
theorem rowspan_sum_amended (data : List Row)
    (groupCols pivotCols valueCols : List Column) (tc : Option TotalsConfig)
    (gcData rcData : Option (List Row)) (j : Nat)
    (hj : j < groupCols.length) :
    visSpanSum (processPivotData data groupCols pivotCols valueCols tc
        gcData rcData).rowHeaders j =
      (processPivotData data groupCols pivotCols valueCols tc
        gcData rcData).rowHeaders.length -
        (if showsColumnTotals tc = true ∧ 1 ≤ j then 1 else 0) := by
  by_cases hd : data.isEmpty
  · have hempty : processPivotData data groupCols pivotCols valueCols tc
        gcData rcData = { headerRows := [], rowHeaders := [], dataMatrix := [] } := by
      unfold processPivotData
      rw [if_pos hd]
    rw [hempty]
    simp [visSpanSum]
  · have hrh : (processPivotData data groupCols pivotCols valueCols tc
        gcData rcData).rowHeaders =
        headerCFPass groupCols (spanPass tc groupCols.length
          ((finalRowKeys data groupCols tc).map
            (mkRowHeaderCells groupCols tc data))) := by
      unfold processPivotData
      rw [if_neg hd]
    rw [hrh]
    have hskel := gridSkel_headerCFPass groupCols (spanPass tc
      groupCols.length ((finalRowKeys data groupCols tc).map
        (mkRowHeaderCells groupCols tc data)))
    rw [visSpanSum_of_gridSkel hskel j, length_of_gridSkel hskel,
      visSpanSum_spanPass_keys data groupCols tc j hj, spanPass_length]
    simp

/-- Witness for C4 amended at the counterexample input and level 1 (the
grand-total branch of the amended law). -/
theorem rowspan_sum_amended_witness :
    visSpanSum (processPivotData [c4Row] c4GroupCols [] [{ id := "s" }]
        (some c4Tc) none none).rowHeaders 1 =
      (processPivotData [c4Row] c4GroupCols [] [{ id := "s" }]
        (some c4Tc) none none).rowHeaders.length -
        (if showsColumnTotals (some c4Tc) = true ∧ 1 ≤ 1 then 1 else 0) :=
  rowspan_sum_amended [c4Row] c4GroupCols [] [{ id := "s" }] (some c4Tc)
    none none 1 (by decide)

/-! ## C1 — result dimensions -/

theorem mapWithIdxGo_map_proj {α β γ : Type} (f : Nat → α → β) (pr : β → γ)
    (pr' : α → γ) (h : ∀ i a, pr (f i a) = pr' a) :
    ∀ (i : Nat) (l : List α), (mapWithIdxGo f i l).map pr = l.map pr' := by
  intro i l
  induction l generalizing i with
  | nil => rfl
  | cons a t ih => simp [mapWithIdxGo, h, ih]

/-- Every raw matrix row has one slot per (ColumnKey × value column). -/
theorem rawMatrix_rowlen (vm : ValueMap) (mapping : JsMap String)
    (valueCols : List Column) (fRowKeys fColKeys : List String) :
    ∀ row ∈ rawMatrix vm mapping valueCols fRowKeys fColKeys,
      row.length = fColKeys.length * valueCols.length := by
  intro row hrow
  rcases List.mem_map.mp hrow with ⟨rKey, _, rfl⟩
  exact flatMap_const_length _ _ _ (fun cKey _ => by simp)

/-- The style loop preserves every row's length. -/
theorem styledDataMatrix_rowlens (gc pc vc : List Column) (H : Grid)
    (CK : List String) (raw : List (List JsVal)) :
    (styledDataMatrix gc pc vc H CK raw).map List.length =
      raw.map List.length := by
  unfold styledDataMatrix mapWithIdx
  exact mapWithIdxGo_map_proj _ List.length List.length
    (fun i a => mapWithIdx_length _ a) 0 raw

/-- Row lengths of the styled matrix over a raw matrix. -/
theorem styled_raw_rowlen (gc pc vc : List Column) (H : Grid)
    (CK : List String) (vm : ValueMap) (mapping : JsMap String)
    (RK : List String) :
    ∀ row ∈ styledDataMatrix gc pc vc H CK (rawMatrix vm mapping vc RK CK),
      row.length = CK.length * vc.length := by
  intro row hrow
  have hmem : row.length ∈ (styledDataMatrix gc pc vc H CK
      (rawMatrix vm mapping vc RK CK)).map List.length :=
    List.mem_map_of_mem List.length hrow
  rw [styledDataMatrix_rowlens] at hmem
  rcases List.mem_map.mp hmem with ⟨rawRow, hraw, hlen⟩
  rw [← hlen]
  exact rawMatrix_rowlen vm mapping vc RK CK rawRow hraw

/-- C1: for a non-empty dataset, every data-matrix row has exactly
(#ColumnKeys) × (#valueColumns) slots, where the ColumnKeys count the TOTAL
marker when row totals are enabled; and the row headers have exactly one
entry per final RowKey, which count the TOTAL marker when column totals are
enabled. -/
theorem pivot_result_dimensions (data : List Row)
    (groupCols pivotCols valueCols : List Column) (tc : Option TotalsConfig)
    (gcData rcData : Option (List Row)) (hd : data ≠ []) :
    (∀ row ∈ (processPivotData data groupCols pivotCols valueCols tc
        gcData rcData).dataMatrix,
      row.length = (finalColKeys data pivotCols tc).length * valueCols.length) ∧
    (processPivotData data groupCols pivotCols valueCols tc
        gcData rcData).rowHeaders.length =
      (finalRowKeys data groupCols tc).length ∧
    (finalColKeys data pivotCols tc).length =
      (baseColKeys data pivotCols).length +
        (if showsRowTotals tc = true then 1 else 0) ∧
    (finalRowKeys data groupCols tc).length =
      (baseSortedRowKeys data groupCols).length +
        (if showsColumnTotals tc = true then 1 else 0) := by
  have hde : ¬data.isEmpty = true := by
    simpa [List.isEmpty_iff] using hd
  refine ⟨?_, ?_, ?_, ?_⟩
  · intro row hrow
    unfold processPivotData at hrow
    rw [if_neg hde] at hrow
    exact styled_raw_rowlen _ _ _ _ _ _ _ _ row hrow
  · unfold processPivotData
    rw [if_neg hde]
    have hskel := gridSkel_headerCFPass groupCols (spanPass tc
      groupCols.length ((finalRowKeys data groupCols tc).map
        (mkRowHeaderCells groupCols tc data)))
    calc (headerCFPass groupCols (spanPass tc groupCols.length
          ((finalRowKeys data groupCols tc).map
            (mkRowHeaderCells groupCols tc data)))).length
        = (spanPass tc groupCols.length ((finalRowKeys data groupCols tc).map
            (mkRowHeaderCells groupCols tc data))).length :=
          length_of_gridSkel hskel
      _ = (finalRowKeys data groupCols tc).length := by
          rw [spanPass_length]
          simp
  · rcases tc with _ | t
    · simp [finalColKeys, showsRowTotals]
    · rcases hsr : t.showRowTotals <;>
        rcases hp : t.rowTotalsPosition <;>
        simp [finalColKeys, showsRowTotals, hsr, hp]
  · rcases tc with _ | t
    · simp [finalRowKeys, showsColumnTotals]
    · rcases hsc : t.showColumnTotals <;>
        rcases hp : t.columnTotalsPosition <;>
        simp [finalRowKeys, showsColumnTotals, hsc, hp]

/-- Witness for C1 at the end-to-end scenario with both totals enabled. -/
theorem pivot_result_dimensions_witness :
    (∀ row ∈ (processPivotData sampleData sampleGroupCols samplePivotCols
        sampleValueCols (some bothTotalsTc) none none).dataMatrix,
      row.length = (finalColKeys sampleData samplePivotCols
          (some bothTotalsTc)).length * sampleValueCols.length) ∧
    (processPivotData sampleData sampleGroupCols samplePivotCols
        sampleValueCols (some bothTotalsTc) none none).rowHeaders.length =
      (finalRowKeys sampleData sampleGroupCols (some bothTotalsTc)).length := by
  have h := pivot_result_dimensions sampleData sampleGroupCols samplePivotCols
    sampleValueCols (some bothTotalsTc) none none (by decide)
  exact ⟨h.1, h.2.1⟩

/-! ## C7 — grand totals and conditional formatting -/

theorem gridGet_gridModify_ne (g : Grid) (i j : Nat)
    (f : PivotRowHeader → PivotRowHeader) (i' j' : Nat)
    (h : i ≠ i' ∨ j ≠ j') :
    gridGet (gridModify g i j f) i' j' = gridGet g i' j' := by
  unfold gridGet gridModify
  rw [updateNth_get?]
  rcases h with hi | hj
  · rw [if_neg hi]
  · by_cases hii : i = i'
    · rw [if_pos hii]
      cases hrow : g.get? i' with
      | none => rfl
      | some row =>
          show (updateNth j f row).get? j' = row.get? j'
          rw [updateNth_get?, if_neg hj]
    · rw [if_neg hii]

/-- The header-CF pass never touches a cell in column 0 whose value is the
literal `'Grand Total'`: direct styling is excluded by the guard and
propagation only writes to columns ≥ 1. -/
theorem headerCFStep_keep (groupCols : List Column) (g : Grid)
    (colIdx rowIdx tIdx : Nat) (c0 : PivotRowHeader)
    (hc : gridGet g tIdx 0 = some c0) (hv : c0.value = "Grand Total") :
    gridGet (headerCFStep groupCols g colIdx rowIdx) tIdx 0 = some c0 := by
  unfold headerCFStep
  rcases hgc : groupCols.get? colIdx with _ | groupCol
  · exact hc
  · rcases hgg : gridGet g rowIdx colIdx with _ | header
    · exact hc
    · dsimp only
      have hbase : ∀ (F : PivotRowHeader → PivotRowHeader),
          (header.isVisible && !(header.value == "Grand Total")) = true →
          gridGet (gridModify g rowIdx colIdx F) tIdx 0 = some c0 := by
        intro F h1
        by_cases hij : rowIdx = tIdx ∧ colIdx = 0
        · exfalso
          obtain ⟨hi, hj⟩ := hij
          rw [hi, hj, hc] at hgg
          have hhead : header = c0 := by
            injection hgg with hx
            exact hx.symm
          rw [hhead, hv] at h1
          simp at h1
        · rw [gridGet_gridModify_ne g rowIdx colIdx F tIdx 0 (by tauto)]
          exact hc
      have hfold : ∀ (F : PivotRowHeader → PivotRowHeader) (n : Nat),
          (header.isVisible && !(header.value == "Grand Total")) = true →
          gridGet ((List.range n).foldl (fun g2 spanOffset =>
            if rowIdx + spanOffset < g2.length then
              (List.range groupCols.length).foldl (fun g3 childColIdx =>
                if colIdx + 1 ≤ childColIdx then
                  gridModify g3 (rowIdx + spanOffset) childColIdx (fun c =>
                    { c with style := spreadMerge c.style (applyConditionalFormatting (JsVal.str header.value) groupCol.conditionalFormats []) })
                else g3) g2
            else g2) (gridModify g rowIdx colIdx F)) tIdx 0 = some c0 := by
        intro F n h1
        refine foldl_ind (fun g' => gridGet g' tIdx 0 = some c0) _ ?_ _ _
          (hbase F h1)
        intro a b pa
        split_ifs with ht
        · refine foldl_ind (fun g' => gridGet g' tIdx 0 = some c0) _ ?_ _ _ pa
          intro a2 b2 pa2
          split_ifs with hcc
          · rw [gridGet_gridModify_ne a2 (rowIdx + b) b2 _ tIdx 0
              (Or.inr (by omega))]
            exact pa2
          · exact pa2
        · exact pa
      split_ifs with h1 h2 h3
      · exact hfold _ _ h1
      · exact hfold _ _ h1
      · exact hc
      · exact hc

theorem headerCFPass_keep (groupCols : List Column) (g : Grid) (tIdx : Nat)
    (c0 : PivotRowHeader) (hc : gridGet g tIdx 0 = some c0)
    (hv : c0.value = "Grand Total") :
    gridGet (headerCFPass groupCols g) tIdx 0 = some c0 := by
  unfold headerCFPass
  refine foldl_ind (fun g' => gridGet g' tIdx 0 = some c0) _ ?_ _ _ hc
  intro a ci pa
  rcases groupCols.get? ci with _ | gcol
  · exact pa
  · dsimp only
    split_ifs with h
    · refine foldl_ind (fun g' => gridGet g' tIdx 0 = some c0) _ ?_ _ _ pa
      intro a2 ri pa2
      exact headerCFStep_keep groupCols a2 ci ri tIdx c0 pa2 hv
    · exact pa

/-- The first cell of the grand-total header row, as constructed. -/
theorem mkTotal_cell0 (groupCols : List Column) (tc : Option TotalsConfig)
    (data : List Row) (h0 : 0 < groupCols.length) :
    (mkRowHeaderCells groupCols tc data TOTAL_KEY).get? 0 =
      some { value := grandTotalLabel tc, rowSpan := 1
             colSpan := groupCols.length, isVisible := true
             style := boldStyle } := by
  unfold mkRowHeaderCells
  rw [if_pos (by simp)]
  rw [get?_map_eq]
  have hr : (List.range groupCols.length).get? 0 = some 0 := by
    rw [List.get?_eq_getElem?, List.getElem?_range h0]
  rw [hr]
  simp

/-- Every cell emitted by the run fold carries bold exactly when its label is
the configured grand-total label. -/
theorem mem_flushHeaderCell (tc : Option TotalsConfig)
    (lbl : Option String) (span : Nat) (acc : List HeaderCell)
    (cell : HeaderCell) (h : cell ∈ flushHeaderCell tc lbl span acc) :
    cell ∈ acc ∨ cell.style =
      (if cell.label == grandTotalLabel tc then boldStyle else []) := by
  unfold flushHeaderCell at h
  rcases lbl with _ | l
  · exact Or.inl h
  · rcases List.mem_append.mp h with hmem | hnew
    · exact Or.inl hmem
    · right
      have : cell = { label := l, colSpan := span
                      style := if l == grandTotalLabel tc then boldStyle
                        else [] } := by
        simpa using hnew
      rw [this]

theorem buildLevelRow_styles (tc : Option TotalsConfig) (level : Nat)
    (expanded : List (String × Column)) :
    ∀ cell ∈ buildLevelRow tc level expanded, cell.style =
      (if cell.label == grandTotalLabel tc then boldStyle else []) := by
  intro cell hcell
  unfold buildLevelRow at hcell
  have H := foldl_ind
    (fun (st : Option String × Option String × Nat × List HeaderCell) =>
      ∀ c ∈ st.2.2.2, c.style =
        (if c.label == grandTotalLabel tc then boldStyle else []))
    (fun st item =>
      if some (headerLabelOf level item.1) == st.2.1 &&
          (match st.1 with
            | none => true
            | some pk => headerParentsMatch level pk item.1) && st.1.isSome then
        (some item.1, st.2.1, st.2.2.1 + 1, st.2.2.2)
      else
        (some item.1, some (headerLabelOf level item.1), 1,
          flushHeaderCell tc st.2.1 st.2.2.1 st.2.2.2)) ?_ expanded
    (none, none, 0, []) (by simp)
  · rcases mem_flushHeaderCell tc _ _ _ cell hcell with hmem | hsty
    · exact H cell hmem
    · exact hsty
  · intro st item hP
    dsimp only
    split_ifs with hcond
    · exact hP
    · intro c hc
      rcases mem_flushHeaderCell tc _ _ _ c hc with hmem | hsty
      · exact hP c hmem
      · exact hsty

/-- The column-header CF pass never restyles a `'Grand Total'` cell. -/
theorem cfLevelRow_gt (pc : Column) (row : List HeaderCell) :
    ∀ cell ∈ cfLevelRow pc row, cell.label = "Grand Total" → cell ∈ row := by
  intro cell hcell hlbl
  unfold cfLevelRow at hcell
  split_ifs at hcell with hfmt
  · rcases List.mem_map.mp hcell with ⟨c0, hc0, hF⟩
    by_cases hguard : (!(c0.label == "") && !(c0.label == "Grand Total")) = true
    · rw [if_pos hguard] at hF
      have hlab : cell.label = c0.label := by
        rw [← hF]
        split_ifs <;> rfl
      rw [hlbl] at hlab
      simp [← hlab] at hguard
    · rw [if_neg hguard] at hF
      rw [← hF]
      exact hc0
  · exact hcell

/-- C7 counterexample: with a custom `columnTotalsLabel` of `"TOTAL"` and a
group-column rule `eq "TOTAL"`, the grand-total row's header cell is rule
matched and restyled — the exclusion compares the rendered label against the
literal `'Grand Total'` only, so the grand-total row is not excluded from
header-label rule matching. -/
def c7Row : Row := [("region", JsVal.str "East"), ("sales", JsVal.num 5)]

/-- Group column with an `eq "TOTAL"` rule (C7 counterexample). -/
def c7GroupCols : List Column :=
  [{ id := "region"
     conditionalFormats := [Rule.cellValue CmpOp.eq (JsVal.str "TOTAL") none
       { bgColor := some "#ff0000" }] }]

/-- Totals configuration with the custom label (C7 counterexample). -/
def c7Tc : TotalsConfig :=
  { showColumnTotals := true, columnTotalsPosition := ColTotalsPos.bottom
    columnTotalsLabel := some "TOTAL" }

/-- C7 counterexample: the grand-total row's header cell carries the rule's
background color — a group-column rule was evaluated against (and matched)
the grand-total row's header label. -/
theorem total_label_rule_match_counterexample :
    (finalRowKeys [c7Row] c7GroupCols (some c7Tc)).getLast? =
      some TOTAL_KEY ∧
    (processPivotData [c7Row] c7GroupCols [] [{ id := "sales" }]
        (some c7Tc) none none).rowHeaders =
      [[{ value := "East", rowSpan := 1, colSpan := 1, isVisible := true
          style := [] }],
       [{ value := "TOTAL", rowSpan := 1, colSpan := 1, isVisible := true
          style := [("color", none), ("backgroundColor", some "#ff0000"),
            ("fontWeight", none), ("fontStyle", none)] }]] := by
  decide

/-- Row of the C7 totals-inclusion scenario. -/
def c7bRow : Row := [("region", JsVal.str "East"), ("sales", JsVal.num 5)]

/-- Value column with a `gt 10` rule (C7 totals-inclusion scenario). -/
def c7bValueCol : Column :=
  { id := "sales"
    conditionalFormats := [Rule.cellValue CmpOp.gt (JsVal.num 10) none
      { bgColor := some "#00ff00" }] }

/-- Default-label totals configuration (C7 totals-inclusion scenario). -/
def c7bTc : TotalsConfig :=
  { showColumnTotals := true, columnTotalsPosition := ColTotalsPos.bottom }

/-- Precomputed column grand total of the C7 totals-inclusion scenario. -/
def c7bGcRow : Row := [("sales", JsVal.num 99)]

/-- C7 amended: header-label rule matching skips a cell only when its
rendered label is exactly the literal `'Grand Total'`.  Consequently (a) with
the default label the grand-total row's visible header cell survives the
whole pipeline untouched (bold, never rule-styled), (b) a `'Grand Total'`
column-header cell is never restyled by pivot-column rules, (c) the value
population at a column slot contains every numeric cell of that slot over all
output rows — grand-total rows included — and (d) a grand-total data cell is
value-rule matched exactly like an ordinary cell, as the concrete scenario
with a `gt 10` rule shows (only the injected total 99 matches). -/
theorem totals_formatting_amended :
    (∀ (data : List Row) (groupCols pivotCols valueCols : List Column)
        (t : TotalsConfig) (gcData rcData : Option (List Row)),
      t.columnTotalsLabel = none → t.showColumnTotals = true →
      0 < groupCols.length → ¬data.isEmpty = true →
      (t.columnTotalsPosition = ColTotalsPos.top →
        gridGet (processPivotData data groupCols pivotCols valueCols (some t)
            gcData rcData).rowHeaders 0 0 =
          some { value := "Grand Total", rowSpan := 1
                 colSpan := groupCols.length, isVisible := true
                 style := boldStyle }) ∧
      (t.columnTotalsPosition = ColTotalsPos.bottom →
        gridGet (processPivotData data groupCols pivotCols valueCols (some t)
            gcData rcData).rowHeaders
          ((baseSortedRowKeys data groupCols).length) 0 =
          some { value := "Grand Total", rowSpan := 1
                 colSpan := groupCols.length, isVisible := true
                 style := boldStyle })) ∧
    (∀ (data : List Row) (groupCols pivotCols valueCols : List Column)
        (tc : Option TotalsConfig) (gcData rcData : Option (List Row))
        (level : Nat) (row : List HeaderCell),
      grandTotalLabel tc = "Grand Total" →
      (processPivotData data groupCols pivotCols valueCols tc gcData
          rcData).headerRows.get? level = some row →
      level < pivotCols.length →
      ∀ cell ∈ row, cell.label = "Grand Total" → cell.style = boldStyle) ∧
    (∀ (raw : List (List JsVal)) (i colIdx : Nat) (x : Int),
      i < raw.length →
      numericOfCell ((raw.getD i []).getD colIdx JsVal.undef) = some x →
      x ∈ columnPopulation raw colIdx) ∧
    (processPivotData [c7bRow] [{ id := "region" }] [] [c7bValueCol]
        (some c7bTc) (some [c7bGcRow]) none).dataMatrix =
      [[{ value := JsVal.num 5, style := [] }],
       [{ value := JsVal.num 99
          style := [("color", none), ("backgroundColor", some "#00ff00"),
            ("fontWeight", none), ("fontStyle", none)] }]] := by
  refine ⟨?_, ?_, ?_, by decide⟩
  · intro data groupCols pivotCols valueCols t gcData rcData hlbl hsc h0 hd
    have hgt : grandTotalLabel (some t) = "Grand Total" := by
      simp [grandTotalLabel, hlbl]
    have hrh : (processPivotData data groupCols pivotCols valueCols (some t)
        gcData rcData).rowHeaders =
        headerCFPass groupCols (spanPass (some t) groupCols.length
          ((finalRowKeys data groupCols (some t)).map
            (mkRowHeaderCells groupCols (some t) data))) := by
      unfold processPivotData
      rw [if_neg hd]
    have hcell0 := mkTotal_cell0 groupCols (some t) data h0
    constructor
    · intro htop
      have hkeys : finalRowKeys data groupCols (some t) =
          TOTAL_KEY :: baseSortedRowKeys data groupCols := by
        simp [finalRowKeys, hsc, htop]
      rw [hrh, hkeys, List.map_cons,
        spanPass_shape_top (some t) groupCols.length _ _
          (by simp [spanStartIdx, hsc, htop]) (by simp [spanEndCut, hsc, htop])]
      rw [hgt] at hcell0
      refine headerCFPass_keep groupCols _ 0 _ ?_ rfl
      simpa [gridGet] using hcell0
    · intro hbot
      have hkeys : finalRowKeys data groupCols (some t) =
          baseSortedRowKeys data groupCols ++ [TOTAL_KEY] := by
        simp [finalRowKeys, hsc, hbot]
      rw [hrh, hkeys, List.map_append, List.map_cons, List.map_nil,
        spanPass_shape_bottom (some t) groupCols.length _ _
          (by simp [spanStartIdx, hsc, hbot]) (by simp [spanEndCut, hsc, hbot])]
      rw [hgt] at hcell0
      refine headerCFPass_keep groupCols _ _ _ ?_ rfl
      have hidx : (applySpans groupCols.length
          ((baseSortedRowKeys data groupCols).map
            (mkRowHeaderCells groupCols (some t) data)) ++
          [mkRowHeaderCells groupCols (some t) data TOTAL_KEY]).get?
          (baseSortedRowKeys data groupCols).length =
          some (mkRowHeaderCells groupCols (some t) data TOTAL_KEY) := by
        have hlen : (applySpans groupCols.length
            ((baseSortedRowKeys data groupCols).map
              (mkRowHeaderCells groupCols (some t) data))).length =
            (baseSortedRowKeys data groupCols).length := by
          rw [applySpans_length]
          simp
        rw [← hlen]
        exact List.get?_concat_length _ _
      have hgg : gridGet (applySpans groupCols.length
          ((baseSortedRowKeys data groupCols).map
            (mkRowHeaderCells groupCols (some t) data)) ++
          [mkRowHeaderCells groupCols (some t) data TOTAL_KEY])
          ((baseSortedRowKeys data groupCols).length) 0 =
          (mkRowHeaderCells groupCols (some t) data TOTAL_KEY).get? 0 := by
        unfold gridGet
        rw [hidx]
        rfl
      rw [hgg]
      exact hcell0
  · intro data groupCols pivotCols valueCols tc gcData rcData level row hgt
      hrow hlev cell hcell hlbl
    by_cases hd : data.isEmpty
    · unfold processPivotData at hrow
      rw [if_pos hd] at hrow
      simp at hrow
    · unfold processPivotData at hrow
      rw [if_neg hd] at hrow
      have hhr : (buildHeaderRows tc pivotCols valueCols
          (finalColKeys data pivotCols tc)).get? level = some row := hrow
      unfold buildHeaderRows at hhr
      rw [List.get?_append (by
        rw [mapWithIdx_length]
        exact hlev), mapWithIdx_get?] at hhr
      rcases hpc : pivotCols.get? level with _ | pc
      · rw [hpc] at hhr
        simp at hhr
      · rw [hpc] at hhr
        simp only [Option.map_some', Option.some.injEq] at hhr
        rw [← hhr] at hcell
        have hc0 := cfLevelRow_gt pc _ cell hcell hlbl
        have := buildLevelRow_styles tc level _ cell hc0
        rw [hlbl, hgt] at this
        simpa using this
  · intro raw i colIdx x hi hnum
    unfold columnPopulation
    apply List.mem_filterMap.mpr
    refine ⟨raw.getD i [], ?_, hnum⟩
    have : raw.getD i [] = raw.get ⟨i, hi⟩ := by
      rw [List.getD_eq_getElem _ _ hi]
      simp
    rw [this]
    exact raw.get_mem _ hi

/-- Witness for C7 amended: the default-label scenario keeps the grand-total
header bold, and the population membership holds at a concrete matrix. -/
theorem totals_formatting_amended_witness :
    gridGet (processPivotData [c7bRow] [{ id := "region" }] [] [c7bValueCol]
        (some c7bTc) (some [c7bGcRow]) none).rowHeaders
      ((baseSortedRowKeys [c7bRow] [{ id := "region" }]).length) 0 =
      some { value := "Grand Total", rowSpan := 1, colSpan := 1
             isVisible := true, style := boldStyle } ∧
    (99 : Int) ∈ columnPopulation [[JsVal.num 5], [JsVal.num 99]] 0 := by
  constructor
  · exact (totals_formatting_amended.1 [c7bRow] [{ id := "region" }] []
      [c7bValueCol] c7bTc (some [c7bGcRow]) none rfl rfl (by decide)
      (by decide)).2 rfl
  · exact totals_formatting_amended.2.2.1 [[JsVal.num 5], [JsVal.num 99]]
      1 0 99 (by decide) (by decide)

/-! ## C10 — blank rendering of falsy group values -/

theorem applySpans_nil (levels : Nat) : applySpans levels [] = [] := by
  have h := applySpans_length levels []
  simpa [List.length_eq_zero] using h

/-- The span pass never alters header values, only spans and visibility. -/
theorem spanPass_values (tc : Option TotalsConfig) (levels : Nat)
    (temp : Grid) :
    (spanPass tc levels temp).map rowValuesAt = temp.map rowValuesAt := by
  rcases tc with _ | t
  · rw [spanPass_shape_none none levels temp rfl rfl, applySpans_values]
  · rcases hsc : t.showColumnTotals with _ | _
    · rw [spanPass_shape_none (some t) levels temp
        (by simp [spanStartIdx, hsc]) (by simp [spanEndCut, hsc]),
        applySpans_values]
    · rcases htc : t.columnTotalsPosition
      · cases temp with
        | nil => simp [spanPass, applySpans_nil]
        | cons r0 rest =>
            rw [spanPass_shape_top (some t) levels r0 rest
              (by simp [spanStartIdx, hsc, htc])
              (by simp [spanEndCut, hsc, htc])]
            simp [applySpans_values]
      · rcases List.eq_nil_or_concat temp with rfl | ⟨body, last, rfl⟩
        · simp [spanPass, applySpans_nil]
        · rw [List.concat_eq_append, spanPass_shape_bottom (some t) levels
            body last (by simp [spanStartIdx, hsc, htc])
            (by simp [spanEndCut, hsc, htc])]
          simp [applySpans_values]

/-- C10: a group-column header cell whose representative value is falsy —
`null`, `undefined`, the empty string or the number 0 — renders as the
literal `"(Blank)"` (in particular 0 renders as `"(Blank)"`, not `"0"`);
every non-total output row's header values are exactly the rendered
representative-row values; and the end-to-end scenario with a 0-valued group
cell shows the blank in the output. -/
theorem blank_rendering :
    (∀ v : JsVal, jsTruthy v = false → renderHeaderValue v = "(Blank)") ∧
    renderHeaderValue (JsVal.num 0) = "(Blank)" ∧
    ¬renderHeaderValue (JsVal.num 0) = "0" ∧
    (∀ (data : List Row) (groupCols pivotCols valueCols : List Column)
        (tc : Option TotalsConfig) (gcData rcData : Option (List Row))
        (i : Nat) (rKey : String),
      ¬data.isEmpty = true →
      (finalRowKeys data groupCols tc).get? i = some rKey →
      ¬rKey = TOTAL_KEY →
      ((processPivotData data groupCols pivotCols valueCols tc gcData
          rcData).rowHeaders.getD i []).map (fun c => c.value) =
        groupCols.map (fun col => renderHeaderValue (jsGet
          ((data.find? (fun r => rowKeyOf groupCols r == rKey)).getD [])
          col.id))) ∧
    (processPivotData [[("g", JsVal.num 0), ("s", JsVal.num 1)]]
        [{ id := "g" }] [] [{ id := "s" }] none none none).rowHeaders.map
      (fun row => row.map (fun c => c.value)) = [["(Blank)"]] := by
  refine ⟨?_, by decide, by decide, ?_, by decide⟩
  · intro v hv
    unfold renderHeaderValue
    rw [hv]
    rfl
  · intro data groupCols pivotCols valueCols tc gcData rcData i rKey hd hget hne
    have hrh : (processPivotData data groupCols pivotCols valueCols tc gcData
        rcData).rowHeaders =
        headerCFPass groupCols (spanPass tc groupCols.length
          ((finalRowKeys data groupCols tc).map
            (mkRowHeaderCells groupCols tc data))) := by
      unfold processPivotData
      rw [if_neg hd]
    rw [hrh]
    have hvals : (headerCFPass groupCols (spanPass tc groupCols.length
        ((finalRowKeys data groupCols tc).map
          (mkRowHeaderCells groupCols tc data)))).map rowValuesAt =
        ((finalRowKeys data groupCols tc).map
          (mkRowHeaderCells groupCols tc data)).map rowValuesAt := by
      rw [gridValues_of_gridSkel (gridSkel_headerCFPass _ _), spanPass_values]
    have h1 : ((headerCFPass groupCols (spanPass tc groupCols.length
        ((finalRowKeys data groupCols tc).map
          (mkRowHeaderCells groupCols tc data)))).get? i).map rowValuesAt =
        (((finalRowKeys data groupCols tc).map
          (mkRowHeaderCells groupCols tc data)).get? i).map rowValuesAt := by
      rw [← get?_map_eq, ← get?_map_eq, hvals]
    have h2 : ((finalRowKeys data groupCols tc).map
        (mkRowHeaderCells groupCols tc data)).get? i =
        some (mkRowHeaderCells groupCols tc data rKey) := by
      rw [get?_map_eq, hget]
      rfl
    rw [h2] at h1
    rcases hf : (headerCFPass groupCols (spanPass tc groupCols.length
        ((finalRowKeys data groupCols tc).map
          (mkRowHeaderCells groupCols tc data)))).get? i with _ | row
    · rw [hf] at h1
      exact absurd h1 (by simp)
    · rw [hf] at h1
      simp only [Option.map_some', Option.some.injEq] at h1
      have hgd : (headerCFPass groupCols (spanPass tc groupCols.length
          ((finalRowKeys data groupCols tc).map
            (mkRowHeaderCells groupCols tc data)))).getD i [] = row := by
        unfold List.getD
        rw [hf]
        rfl
      rw [hgd]
      have hrow : row.map (fun c => c.value) =
          rowValuesAt (mkRowHeaderCells groupCols tc data rKey) := h1
      rw [hrow]
      unfold mkRowHeaderCells rowValuesAt
      rw [if_neg (by simpa using hne)]
      simp [List.map_map, Function.comp]

/-- Witness for C10 at the 0-valued group cell scenario. -/
theorem blank_rendering_witness :
    renderHeaderValue JsVal.null = "(Blank)" ∧
    ((processPivotData [[("g", JsVal.num 0), ("s", JsVal.num 1)]]
        [{ id := "g" }] [] [{ id := "s" }] none none none).rowHeaders.getD
      0 []).map (fun c => c.value) =
      [({ id := "g" } : Column)].map (fun col => renderHeaderValue (jsGet
        (([([("g", JsVal.num 0), ("s", JsVal.num 1)] : Row)].find?
          (fun r => rowKeyOf [({ id := "g" } : Column)] r == "0")).getD [])
        col.id)) := by
  constructor
  · exact blank_rendering.1 JsVal.null rfl
  · exact blank_rendering.2.2.2.1 [[("g", JsVal.num 0), ("s", JsVal.num 1)]]
      [{ id := "g" }] [] [{ id := "s" }] none none none 0 "0" (by decide)
      (by decide) (by decide)

end PivotSpec
